import Mathlib

set_option maxHeartbeats 1000000

/-!
Verification of the retrieval-and-delivery pipeline of arxiv_fetch.py
(class ArxivCollector and main), as a shallow embedding.  Python effects are
made explicit: the processed_papers set is threaded as a list of strings,
HTTP and file-system outcomes are supplied by oracles, exceptions are
Except.error values, and the host local timezone consulted by
datetime.timestamp() is an explicit offset parameter.
-/

namespace ArxivFetch

/-! ## Python string primitives used by the source -/

/-- Whitespace predicate of Python str.strip (the characters for which
str.isspace holds: ASCII whitespace, the file/group/record/unit separators
0x1c-0x1f, NEL, NBSP and the Unicode space separators). -/
def pyIsSpace (c : Char) : Bool :=
  c = ' ' || (9 ≤ c.toNat && c.toNat ≤ 13) || (28 ≤ c.toNat && c.toNat ≤ 31) ||
  c.toNat = 0x85 || c.toNat = 0xa0 || c.toNat = 0x1680 ||
  (0x2000 ≤ c.toNat && c.toNat ≤ 0x200a) || c.toNat = 0x2028 || c.toNat = 0x2029 ||
  c.toNat = 0x202f || c.toNat = 0x205f || c.toNat = 0x3000

/-- Python str.strip(): drop leading and trailing whitespace. -/
def pyStripChars (l : List Char) : List Char :=
  ((l.dropWhile pyIsSpace).reverse.dropWhile pyIsSpace).reverse

/-- str.strip on Lean strings. -/
def pyStrip (s : String) : String := ⟨pyStripChars s.data⟩

/-- Python str.split(sep) for a one-character separator: split at every
occurrence of the separator, keeping empty segments. -/
def splitChar (sep : Char) : List Char → List (List Char)
  | [] => [[]]
  | c :: cs =>
    let r := splitChar sep cs
    if c = sep then [] :: r else (c :: r.headD []) :: r.tail

/-- Python truthiness of an Optional[str] value. -/
def truthy : Option String → Bool
  | none => false
  | some s => s != ""

/-- Numeric value of a decimal digit character. -/
def digitVal (c : Char) : Nat := c.toNat - 48

/-- Digit run of Python int(): decimal digits with single underscores allowed
between digits. -/
def pyIntGo (acc : Nat) : List Char → Option Nat
  | [] => some acc
  | c :: cs =>
    if c = '_' then
      match cs with
      | [] => none
      | d :: ds => if d.isDigit then pyIntGo (acc * 10 + digitVal d) ds else none
    else if c.isDigit then pyIntGo (acc * 10 + digitVal c) cs else none

/-- Python int(str): optional surrounding whitespace, an optional sign, then a
nonempty digit run.  none models the ValueError raised on any other shape. -/
def pyInt (s : String) : Option Int :=
  match pyStripChars s.data with
  | [] => none
  | c :: cs =>
    if c = '-' then
      match cs with
      | [] => none
      | d :: ds => if d.isDigit then (pyIntGo (digitVal d) ds).map (fun n => -(n : Int)) else none
    else if c = '+' then
      match cs with
      | [] => none
      | d :: ds => if d.isDigit then (pyIntGo (digitVal d) ds).map (fun n => (n : Int)) else none
    else if c.isDigit then (pyIntGo (digitVal c) cs).map (fun n => (n : Int)) else none

/-! ## The timestamp parser (_parse_datetime)

datetime.strptime(date_str, "%Y-%m-%dT%H:%M:%SZ") is embedded following the
regexes _strptime builds for each directive (compiled with IGNORECASE, hence
the case-insensitive literals), followed by the validation the datetime
constructor performs, followed by int(dt.timestamp()).  The result of strptime
is a naive datetime, which timestamp() interprets in the host local timezone;
that zone is modelled as the fixed offset utcOff in seconds east of UTC in
effect at the parsed instant. -/

/-- Gregorian leap-year test. -/
def isLeap (y : Nat) : Bool := y % 4 == 0 && (y % 100 != 0 || y % 400 == 0)

/-- Length of a month. -/
def daysInMonth (y m : Nat) : Nat :=
  if m = 2 then (if isLeap y then 29 else 28)
  else if m = 4 ∨ m = 6 ∨ m = 9 ∨ m = 11 then 30
  else 31

/-- Days in year y before month m. -/
def daysBeforeMonth (y m : Nat) : Nat :=
  (List.range (m - 1)).foldl (fun acc i => acc + daysInMonth y (i + 1)) 0

/-- Proleptic Gregorian ordinal as in datetime.toordinal (0001-01-01 is 1). -/
def toOrdinal (y m d : Nat) : Nat :=
  365 * (y - 1) + (y - 1) / 4 - (y - 1) / 100 + (y - 1) / 400 + daysBeforeMonth y m + d

/-- A literal character of the strptime format, matched case-insensitively. -/
def litMatch (c : Char) : List Char → Option (List Char)
  | [] => none
  | x :: rest => if x.toLower = c.toLower then some rest else none

/-- The %Y directive: exactly four digits. -/
def parseY : List Char → Option (Nat × List Char)
  | a :: b :: c :: d :: rest =>
    if a.isDigit && b.isDigit && c.isDigit && d.isDigit then
      some (digitVal a * 1000 + digitVal b * 100 + digitVal c * 10 + digitVal d, rest)
    else none
  | _ => none

/-- A numeric directive whose _strptime regex is an alternation of two-digit
forms and a one-digit form: take two digits when their value passes the
two-digit test, else one digit passing the one-digit test.  This agrees with
the backtracking regex because after a successful two-digit match the next
format character is a non-digit literal, so the one-digit alternative can
never rescue a failed continuation. -/
def parse2or1 (two : Nat → Bool) (one : Nat → Bool) : List Char → Option (Nat × List Char)
  | [] => none
  | [a] => if a.isDigit && one (digitVal a) then some (digitVal a, []) else none
  | a :: b :: rest =>
    if a.isDigit && b.isDigit && two (digitVal a * 10 + digitVal b) then
      some (digitVal a * 10 + digitVal b, rest)
    else if a.isDigit && one (digitVal a) then some (digitVal a, b :: rest)
    else none

/-- Shallow embedding of _parse_datetime (arxiv_fetch.py lines 72-75). -/
def parse_datetime (utcOff : Int) (s : String) : Option Int := do
  let (y, r1) ← parseY s.data
  let r2 ← litMatch '-' r1
  let (mo, r3) ← parse2or1 (fun v => 1 ≤ v && v ≤ 12) (fun v => 1 ≤ v && v ≤ 9) r2
  let r4 ← litMatch '-' r3
  let (d, r5) ← parse2or1 (fun v => 1 ≤ v && v ≤ 31) (fun v => 1 ≤ v && v ≤ 9) r4
  let r6 ← litMatch 'T' r5
  let (h, r7) ← parse2or1 (fun v => v ≤ 23) (fun _ => true) r6
  let r8 ← litMatch ':' r7
  let (mi, r9) ← parse2or1 (fun v => v ≤ 59) (fun _ => true) r8
  let r10 ← litMatch ':' r9
  let (se, r11) ← parse2or1 (fun v => v ≤ 61) (fun _ => true) r10
  let r12 ← litMatch 'Z' r11
  if r12 = [] ∧ 1 ≤ y ∧ d ≤ daysInMonth y mo ∧ se ≤ 59 then
    some ((((toOrdinal y mo d : Int) - 719163) * 86400
           + (h : Int) * 3600 + (mi : Int) * 60 + (se : Int)) - utcOff)
  else none

/-! ## Records and the entry loop of _parse_response -/

/-- The paper dict built at arxiv_fetch.py line 159. -/
structure Record where
  arxiv_id : String
  title : String
  authors : List String
  abstract : String
  categories : List String
  published_date : Int
deriving DecidableEq

/-- One atom:entry element, reduced to the data _parse_response reads from it:
the optional text of the four required children, the optional name text of
each author element, and the optional term attribute of each category
element. -/
structure Entry where
  idText : Option String
  titleText : Option String
  summaryText : Option String
  publishedText : Option String
  authorNames : List (Option String)
  categoryTerms : List (Option String)
deriving DecidableEq

/-- Identifier normalization id_str.split('/')[-1].split('v')[0]
(arxiv_fetch.py line 127). -/
def normalizeId (s : String) : String :=
  ⟨(splitChar 'v' ((splitChar '/' s.data).getLastD [])).headD []⟩

/-- One iteration of the entry loop of _parse_response (lines 102-173):
some r when a paper dict is appended, none when the entry is skipped
(missing required field, dedup hit, no author, no category, or a ValueError
from timestamp parsing caught by the per-entry except). -/
def entry_step (utcOff : Int) (processed : List String) (e : Entry) : Option Record :=
  if truthy e.idText && truthy e.titleText && truthy e.summaryText && truthy e.publishedText then
    let arxivId := normalizeId (e.idText.getD "")
    if arxivId ∈ processed then none
    else
      let authors := e.authorNames.filterMap id
      if authors = [] then none
      else
        let categories := e.categoryTerms.filterMap id
        if categories = [] then none
        else
          match parse_datetime utcOff (e.publishedText.getD "") with
          | none => none
          | some ts =>
            some ⟨arxivId, pyStrip (e.titleText.getD ""), authors,
                  pyStrip (e.summaryText.getD ""), categories, ts⟩
  else none

/-- The per-entry behaviour with an empty dedup set. -/
def entry_parse (utcOff : Int) (e : Entry) : Option Record := entry_step utcOff [] e

/-- The whole entry loop, threading self.processed_papers. -/
def process_entries (utcOff : Int) (processed : List String) :
    List Entry → List Record × List String
  | [] => ([], processed)
  | e :: es =>
    match entry_step utcOff processed e with
    | none => process_entries utcOff processed es
    | some r =>
      let (rs, s) := process_entries utcOff (r.arxiv_id :: processed) es
      (r :: rs, s)

/-- A response payload as consumed through xml.etree: either malformed XML
(ET.fromstring raises) or a feed carrying the text of opensearch:totalResults
(none when the element or its text is missing) and the entry list. -/
inductive Body where
  | malformed
  | feed (totalResults : Option String) (entries : List Entry)
deriving DecidableEq

/-- _parse_response (lines 83-175).  Except.error models an exception escaping
to collect_papers: malformed XML, the explicit ValueError for a missing total
count, or int() failing on its text. -/
def parse_response (utcOff : Int) (processed : List String) :
    Body → Except String (List Record × Int × List String)
  | .malformed => .error "XML parse error"
  | .feed tr entries =>
    match tr with
    | none => .error "Could not find total results in response"
    | some txt =>
      match pyInt txt with
      | none => .error "invalid literal for int"
      | some total =>
        let (papers, s) := process_entries utcOff processed entries
        .ok (papers, total, s)

/-! ## Delivery sinks and the pagination loop of collect_papers

The loop body performs one requests.get per iteration; its outcome per offset
is supplied by an oracle.  The i-th POST issued by _send_to_api_service and
the i-th file write of _save_to_local are likewise oracle outcomes.  Every
exception raised inside the loop body is caught by the except at line 262
(print and break), and both sinks catch their own exceptions internally, so
the loop always returns a trace. -/

/-- Outcome of one requests.get: a raised transport exception, or a response
with a status code and a payload. -/
inductive FetchOutcome where
  | exn
  | resp (status : Nat) (body : Body)
deriving DecidableEq

/-- Outcome of one requests.post. -/
inductive PostOutcome where
  | exn
  | resp (status : Nat)
deriving DecidableEq

/-- Outcome of one local file write. -/
inductive WriteOutcome where
  | ok
  | exn
deriving DecidableEq

/-- The try block of _send_to_api_service after the URL check: error models an
exception (transport failure, or raise_for_status on a 4xx/5xx status). -/
def send_try (post : PostOutcome) (n : Nat) : Except String String :=
  match post with
  | .exn => .error "transport error"
  | .resp st =>
    if 400 ≤ st ∧ st < 600 then .error ("HTTP error " ++ toString st)
    else .ok ("Successfully sent " ++ toString n ++ " papers to API service")

/-- Python truthiness of self.api_service_url. -/
def urlTruthy : Option String → Bool
  | none => false
  | some u => u != ""

/-- _send_to_api_service (lines 177-205): checks the URL, then runs the try
block and catches every exception, only printing.  The returned list is what
it prints; no exception ever escapes. -/
def send_to_api_service (url : Option String) (post : PostOutcome) (n : Nat) : List String :=
  if urlTruthy url then
    match send_try post n with
    | .ok m => [m]
    | .error e => ["Failed to send papers to API service: " ++ e]
  else ["Error: API service URL is not set"]

/-- Observable events of one run of collect_papers. -/
structure RunTrace where
  fetches : List Nat
  batches : List (List Record)
  posts : List (List Record)
  saves : List (List Record)
  logs : List String
deriving DecidableEq

/-- Collector configuration fixed at construction. -/
structure Cfg where
  output_mode : String
  api_service_url : Option String
deriving DecidableEq

/-- The while loop of collect_papers (lines 224-264).  fuel bounds the number
of modelled iterations; every claim instantiates it above the actual iteration
count of the scenario at hand.  start, nPost, nSave and processed are the
loop-carried state. -/
def collect_papers_loop (cfg : Cfg) (fetchO : Nat → FetchOutcome)
    (postO : Nat → PostOutcome) (saveO : Nat → WriteOutcome) (utcOff : Int) :
    Nat → Nat → Nat → Nat → List String → RunTrace
  | 0, _, _, _, _ => ⟨[], [], [], [], []⟩
  | fuel + 1, start, nPost, nSave, processed =>
    match fetchO start with
    | .exn => ⟨[start], [], [], [], ["Error occurred: transport error"]⟩
    | .resp st body =>
      if 400 ≤ st ∧ st < 600 then
        ⟨[start], [], [], [], ["Error occurred: HTTP error " ++ toString st]⟩
      else
        match parse_response utcOff processed body with
        | .error e => ⟨[start], [], [], [], ["Error occurred: " ++ e]⟩
        | .ok (papers, total, processed2) =>
          let sinkPart : List (List Record) × List (List Record) × Nat × Nat × List String :=
            if papers.isEmpty then ([], [], nPost, nSave, [])
            else if cfg.output_mode = "api" then
              ([papers], [], nPost + 1, nSave,
               send_to_api_service cfg.api_service_url (postO nPost) papers.length)
            else
              match saveO nSave with
              | .ok => ([], [papers], nPost, nSave + 1,
                        ["Successfully saved " ++ toString papers.length ++ " papers"])
              | .exn => ([], [], nPost, nSave + 1,
                         ["Failed to save papers to local file: write error"])
          match sinkPart with
          | (posts0, saves0, nPost2, nSave2, logs0) =>
            if total ≤ (start : Int) + 100 then
              ⟨[start], [papers], posts0, saves0, logs0⟩
            else
              let tr := collect_papers_loop cfg fetchO postO saveO utcOff
                          fuel (start + 100) nPost2 nSave2 processed2
              ⟨start :: tr.fetches, papers :: tr.batches, posts0 ++ tr.posts,
               saves0 ++ tr.saves, logs0 ++ tr.logs⟩

/-- Environment as read by main (getenv results with the defaults of
lines 268-270 already applied; the key string is optional).  keyLoadable
models whether load_pem_private_key accepts the supplied PEM text as an RSA
private key. -/
structure Env where
  outputModeVar : String
  enableSignatureVar : String
  apiServiceUrlVar : String
  privateKeyVar : Option String
  keyLoadable : Bool
deriving DecidableEq

/-- Python str.lower, ASCII part. -/
def pyLower (s : String) : String := ⟨s.data.map Char.toLower⟩

/-- main (lines 266-293) together with ArxivCollector.__init__.  Except.error
models an exception escaping main, after which Python exits with a nonzero
status; Except.ok is a normal return (exit status zero) carrying the printed
configuration diagnostics and, when the collector ran, the loop trace. -/
def main_model (env : Env) (fetchO : Nat → FetchOutcome) (postO : Nat → PostOutcome)
    (saveO : Nat → WriteOutcome) (utcOff : Int) (fuel : Nat) :
    Except String (List String × Option RunTrace) :=
  let output_mode := pyLower env.outputModeVar
  let enable_signature := pyLower env.enableSignatureVar = "true"
  let api_service_url := env.apiServiceUrlVar
  if output_mode ≠ "api" ∧ output_mode ≠ "local" then
    .ok (["Error: OUTPUT_MODE must be either api or local"], none)
  else if output_mode = "api" ∧ api_service_url = "" then
    .ok (["Error: API_SERVICE_URL environment variable is not set"], none)
  else if output_mode = "api" ∧ enable_signature ∧ env.privateKeyVar = none then
    .ok (["Error: ARXIV_IMPORT_PRIVATE_KEY environment variable is not set"], none)
  else
    let cfg : Cfg := ⟨output_mode, if api_service_url = "" then none else some api_service_url⟩
    if enable_signature ∧ output_mode = "api" then
      match env.privateKeyVar with
      | none => .error "ARXIV_IMPORT_PRIVATE_KEY environment variable is not set"
      | some _ =>
        if env.keyLoadable then
          .ok ([], some (collect_papers_loop cfg fetchO postO saveO utcOff fuel 0 0 0 []))
        else .error "Failed to load private key"
    else
      .ok ([], some (collect_papers_loop cfg fetchO postO saveO utcOff fuel 0 0 0 []))

deriving instance DecidableEq for Except

/-- Exit status of the process: an exception escaping main makes the
interpreter exit nonzero, a normal return exits zero. -/
def exit_code {α : Type} : Except String α → Nat
  | .ok _ => 0
  | .error _ => 1

/-- The offsets the loop fetches when every page reports the same stable
total_results and nothing fails: fetch at start, advance by 100, stop as soon
as the advanced offset reaches total. -/
def expected_offsets (total : Int) (start : Nat) : List Nat :=
  if total ≤ (start : Int) + 100 then [start]
  else start :: expected_offsets total (start + 100)
termination_by total.toNat - start
decreasing_by omega

/-- Modelled from the claim wording of C5 (and spec section 4.1): truncate at
the first literal v that is immediately followed by a digit; a v not followed
by digits does not truncate. -/
def truncAtVersionSuffix : List Char → List Char
  | [] => []
  | c :: rest =>
    if c = 'v' then
      match rest with
      | [] => [c]
      | d :: ds => if d.isDigit then [] else c :: truncAtVersionSuffix (d :: ds)
    else c :: truncAtVersionSuffix rest

/-- Modelled from the claim wording of C5: last segment of the raw id URI,
truncated at the first version suffix. -/
def claimNormalizeId (s : String) : String :=
  ⟨truncAtVersionSuffix ((splitChar '/' s.data).getLastD [])⟩

/-! ## JSON serialization (json.dump with ensure_ascii=False) and a JSON
reader for the round-trip property.

The serializer follows the pure-Python encoder json.encoder with
ensure_ascii=False and the default separators: strings escape exactly
backslash, the double quote and the control characters below 0x20 (short
escapes for backspace, tab, newline, formfeed and carriage return, \u00XX
otherwise) and emit every other character verbatim; integers print in
decimal; containers separate items with a comma and space and keys with a
colon and space.  The reader implements standard JSON (json.loads) except
that floats are rejected rather than parsed, since the serialized records
contain only integers. -/

/-- JSON values. -/
inductive Json where
  | jnull
  | jbool (b : Bool)
  | jint (n : Int)
  | jstr (s : List Char)
  | jarr (elems : List Json)
  | jobj (members : List (List Char × Json))

/-- Lower-case hexadecimal digit. -/
def hexDigitChar (n : Nat) : Char :=
  if n < 10 then Char.ofNat (48 + n) else Char.ofNat (87 + n)

/-- Escape one character as py_encode_basestring does. -/
def escChar (c : Char) : List Char :=
  if c = '"' then ['\\', '"']
  else if c = '\\' then ['\\', '\\']
  else if c.toNat = 8 then ['\\', 'b']
  else if c.toNat = 9 then ['\\', 't']
  else if c.toNat = 10 then ['\\', 'n']
  else if c.toNat = 12 then ['\\', 'f']
  else if c.toNat = 13 then ['\\', 'r']
  else if c.toNat < 32 then
    ['\\', 'u', '0', '0', hexDigitChar (c.toNat / 16), hexDigitChar (c.toNat % 16)]
  else [c]

/-- Serialize a JSON string with its quotes. -/
def encStr (s : List Char) : List Char := '"' :: (s.map escChar).flatten ++ ['"']

/-- Decimal digit character. -/
def digitChar (n : Nat) : Char := Char.ofNat (48 + n)

/-- Decimal digits of a natural number, most significant first. -/
def natDigits (n : Nat) : List Char :=
  if n < 10 then [digitChar n]
  else natDigits (n / 10) ++ [digitChar (n % 10)]
termination_by n
decreasing_by exact Nat.div_lt_self (by omega) (by omega)

/-- Python repr of an int. -/
def dumpInt (n : Int) : List Char :=
  if n < 0 then '-' :: natDigits (-n).toNat else natDigits n.toNat

mutual
/-- json.dump(value, f, ensure_ascii=False) with default separators. -/
def dumpJson : Json → List Char
  | .jnull => ['n', 'u', 'l', 'l']
  | .jbool true => ['t', 'r', 'u', 'e']
  | .jbool false => ['f', 'a', 'l', 's', 'e']
  | .jint n => dumpInt n
  | .jstr s => encStr s
  | .jarr xs => '[' :: dumpElems xs ++ [']']
  | .jobj kvs => Char.ofNat 123 :: dumpMembers kvs ++ [Char.ofNat 125]

/-- Array items, separated by a comma and a space. -/
def dumpElems : List Json → List Char
  | [] => []
  | [x] => dumpJson x
  | x :: y :: xs => dumpJson x ++ ',' :: ' ' :: dumpElems (y :: xs)

/-- Object members, key colon space value, separated by comma space. -/
def dumpMembers : List (List Char × Json) → List Char
  | [] => []
  | [(k, v)] => encStr k ++ ':' :: ' ' :: dumpJson v
  | (k, v) :: m :: ms => encStr k ++ ':' :: ' ' :: dumpJson v ++ ',' :: ' ' :: dumpMembers (m :: ms)
end

/-- A string field of a record as a JSON value. -/
def strJ (s : String) : Json := .jstr s.data

/-- The paper dict of arxiv_fetch.py line 159 as JSON, in insertion order. -/
def recordToJson (r : Record) : Json :=
  .jobj [("arxiv_id".data, strJ r.arxiv_id),
         ("title".data, strJ r.title),
         ("authors".data, .jarr (r.authors.map strJ)),
         ("abstract".data, strJ r.abstract),
         ("categories".data, .jarr (r.categories.map strJ)),
         ("published_date".data, .jint r.published_date)]

/-- One line written by _save_to_local for one record: json.dump followed by
the explicit newline write (lines 216-219). -/
def recordLine (r : Record) : List Char := dumpJson (recordToJson r) ++ ['\n']

/-- The whole file _save_to_local writes for one batch. -/
def fileContent (batch : List Record) : List Char := (batch.map recordLine).flatten

/-- Reading a record back from its JSON value, field for field. -/
def jsonStr : Json → Option String
  | .jstr s => some ⟨s⟩
  | _ => none

/-- Read back a list of JSON strings. -/
def jsonStrs : List Json → Option (List String)
  | [] => some []
  | j :: js => do
    let s ← jsonStr j
    let ss ← jsonStrs js
    some (s :: ss)

/-- Inverse of recordToJson on well-shaped objects. -/
def recordOfJson : Json → Option Record
  | .jobj [(k1, .jstr a), (k2, .jstr t), (k3, .jarr au), (k4, .jstr ab),
           (k5, .jarr ca), (k6, .jint p)] =>
    if k1 = "arxiv_id".data ∧ k2 = "title".data ∧ k3 = "authors".data ∧
       k4 = "abstract".data ∧ k5 = "categories".data ∧ k6 = "published_date".data then do
      let authors ← jsonStrs au
      let categories ← jsonStrs ca
      some ⟨⟨a⟩, ⟨t⟩, authors, ⟨ab⟩, categories, p⟩
    else none
  | _ => none

/-- JSON whitespace. -/
def isJsonWs (c : Char) : Bool := c = ' ' || c = '\t' || c = '\n' || c = '\r'

/-- Skip JSON whitespace. -/
def skipWs (cs : List Char) : List Char := cs.dropWhile isJsonWs

/-- Hexadecimal digit value. -/
def hexVal (c : Char) : Option Nat :=
  if '0' ≤ c ∧ c ≤ '9' then some (c.toNat - 48)
  else if 'a' ≤ c ∧ c ≤ 'f' then some (c.toNat - 87)
  else if 'A' ≤ c ∧ c ≤ 'F' then some (c.toNat - 55)
  else none

/-- Body of a JSON string after the opening quote, strict mode: raw control
characters are rejected; escape halves for surrogates are rejected (the
serializer never produces them).  Returns the decoded characters and the
input following the closing quote. -/
def parseStrBody : List Char → Option (List Char × List Char)
  | [] => none
  | c :: rest =>
    if c = '"' then some ([], rest)
    else if c = '\\' then
      match rest with
      | [] => none
      | e :: rest1 =>
        if e = '"' then (parseStrBody rest1).map (fun p => ('"' :: p.1, p.2))
        else if e = '\\' then (parseStrBody rest1).map (fun p => ('\\' :: p.1, p.2))
        else if e = '/' then (parseStrBody rest1).map (fun p => ('/' :: p.1, p.2))
        else if e = 'b' then (parseStrBody rest1).map (fun p => (Char.ofNat 8 :: p.1, p.2))
        else if e = 'f' then (parseStrBody rest1).map (fun p => (Char.ofNat 12 :: p.1, p.2))
        else if e = 'n' then (parseStrBody rest1).map (fun p => ('\n' :: p.1, p.2))
        else if e = 'r' then (parseStrBody rest1).map (fun p => (Char.ofNat 13 :: p.1, p.2))
        else if e = 't' then (parseStrBody rest1).map (fun p => ('\t' :: p.1, p.2))
        else if e = 'u' then
          match rest1 with
          | h1 :: h2 :: h3 :: h4 :: rest2 =>
            match hexVal h1, hexVal h2, hexVal h3, hexVal h4 with
            | some a, some b, some c3, some d =>
              let n := a * 4096 + b * 256 + c3 * 16 + d
              if n < 0xd800 ∨ 0xe000 ≤ n then
                (parseStrBody rest2).map (fun p => (Char.ofNat n :: p.1, p.2))
              else none
            | _, _, _, _ => none
          | _ => none
        else none
    else if c.toNat < 32 then none
    else (parseStrBody rest).map (fun p => (c :: p.1, p.2))

/-- Greedy decimal digit run. -/
def parseNatLoop (acc : Nat) : List Char → Nat × List Char
  | [] => (acc, [])
  | c :: cs => if c.isDigit then parseNatLoop (acc * 10 + digitVal c) cs else (acc, c :: cs)

/-- Reject a following fraction or exponent (floats are unsupported: the
serialized records contain only integers). -/
def intEndOk : List Char → Bool
  | [] => true
  | c :: _ => !(c = '.' || c = 'e' || c = 'E')

/-- JSON number token restricted to integers. -/
def parseIntTok : List Char → Option (Int × List Char)
  | [] => none
  | c :: cs =>
    if c = '-' then
      match cs with
      | [] => none
      | d :: ds =>
        if d.isDigit then
          match parseNatLoop (digitVal d) ds with
          | (n, rest) => if intEndOk rest then some (-(n : Int), rest) else none
        else none
    else if c.isDigit then
      match parseNatLoop (digitVal c) cs with
      | (n, rest) => if intEndOk rest then some ((n : Int), rest) else none
    else none

mutual
/-- JSON value parser.  fuel decreases at every recursive call; it only needs
to dominate the nesting depth plus container sizes of the value being read. -/
def parseVal : Nat → List Char → Option (Json × List Char)
  | 0, _ => none
  | fuel + 1, cs =>
    match skipWs cs with
    | [] => none
    | c :: r =>
      if c = '"' then (parseStrBody r).map (fun p => (Json.jstr p.1, p.2))
      else if c = '[' then
        match skipWs r with
        | [] => none
        | c2 :: r2 =>
          if c2 = ']' then some (.jarr [], r2)
          else (parseElems fuel (c2 :: r2)).map (fun p => (Json.jarr p.1, p.2))
      else if c = Char.ofNat 123 then
        match skipWs r with
        | [] => none
        | c2 :: r2 =>
          if c2 = Char.ofNat 125 then some (.jobj [], r2)
          else (parseMembers fuel (c2 :: r2)).map (fun p => (Json.jobj p.1, p.2))
      else if c = 'n' then
        match r with
        | u :: l1 :: l2 :: r2 =>
          if u = 'u' ∧ l1 = 'l' ∧ l2 = 'l' then some (.jnull, r2) else none
        | _ => none
      else if c = 't' then
        match r with
        | a :: b :: d :: r2 =>
          if a = 'r' ∧ b = 'u' ∧ d = 'e' then some (.jbool true, r2) else none
        | _ => none
      else if c = 'f' then
        match r with
        | a :: b :: d :: e :: r2 =>
          if a = 'a' ∧ b = 'l' ∧ d = 's' ∧ e = 'e' then some (.jbool false, r2) else none
        | _ => none
      else (parseIntTok (c :: r)).map (fun p => (Json.jint p.1, p.2))

/-- Comma-separated array items up to the closing bracket. -/
def parseElems : Nat → List Char → Option (List Json × List Char)
  | 0, _ => none
  | fuel + 1, cs => do
    let (v, r) ← parseVal fuel cs
    match skipWs r with
    | [] => none
    | c :: r2 =>
      if c = ',' then do
        let (vs, r3) ← parseElems fuel r2
        some (v :: vs, r3)
      else if c = ']' then some ([v], r2)
      else none

/-- Comma-separated object members up to the closing brace. -/
def parseMembers : Nat → List Char → Option (List (List Char × Json) × List Char)
  | 0, _ => none
  | fuel + 1, cs =>
    match skipWs cs with
    | [] => none
    | c :: r =>
      if c = '"' then do
        let (k, r2) ← parseStrBody r
        match skipWs r2 with
        | [] => none
        | c2 :: r3 =>
          if c2 = ':' then do
            let (v, r4) ← parseVal fuel r3
            match skipWs r4 with
            | [] => none
            | c3 :: r5 =>
              if c3 = ',' then do
                let (ms, r6) ← parseMembers fuel r5
                some ((k, v) :: ms, r6)
              else if c3 = Char.ofNat 125 then some ([(k, v)], r5)
              else none
          else none
      else none
end

/-- json.loads of one line: parse one value, then require only whitespace
before the end of the input. -/
def jsonParse (cs : List Char) : Option Json :=
  match parseVal (cs.length + 1) cs with
  | some (v, rest) => if skipWs rest = [] then some v else none
  | none => none

/-! ## Base64 and the request signer -/

/-- The base64 alphabet. -/
def b64Char (n : Nat) : Char :=
  if n < 26 then Char.ofNat (65 + n)
  else if n < 52 then Char.ofNat (97 + (n - 26))
  else if n < 62 then Char.ofNat (48 + (n - 52))
  else if n = 62 then '+'
  else '/'

/-- Value of a base64 alphabet character. -/
def b64CharVal (c : Char) : Option Nat :=
  if 'A' ≤ c ∧ c ≤ 'Z' then some (c.toNat - 65)
  else if 'a' ≤ c ∧ c ≤ 'z' then some (c.toNat - 71)
  else if '0' ≤ c ∧ c ≤ '9' then some (c.toNat + 4)
  else if c = '+' then some 62
  else if c = '/' then some 63
  else none

/-- base64.b64encode over byte values. -/
def b64Encode : List Nat → List Char
  | a :: b :: c :: rest =>
    b64Char (a / 4) :: b64Char (a % 4 * 16 + b / 16) ::
    b64Char (b % 16 * 4 + c / 64) :: b64Char (c % 64) :: b64Encode rest
  | [a, b] => [b64Char (a / 4), b64Char (a % 4 * 16 + b / 16), b64Char (b % 16 * 4), '=']
  | [a] => [b64Char (a / 4), b64Char (a % 4 * 16), '=', '=']
  | [] => []

/-- base64.b64decode restricted to well-padded input. -/
def b64Decode : List Char → Option (List Nat)
  | [] => some []
  | [w, x, y, z] =>
    if z = '=' then
      if y = '=' then do
        let a ← b64CharVal w
        let b ← b64CharVal x
        some [a * 4 + b / 16]
      else do
        let a ← b64CharVal w
        let b ← b64CharVal x
        let c ← b64CharVal y
        some [a * 4 + b / 16, b % 16 * 16 + c / 4]
    else do
      let a ← b64CharVal w
      let b ← b64CharVal x
      let c ← b64CharVal y
      let d ← b64CharVal z
      some [a * 4 + b / 16, b % 16 * 16 + c / 4, c % 4 * 64 + d]
  | w :: x :: y :: z :: rest => do
    let a ← b64CharVal w
    let b ← b64CharVal x
    let c ← b64CharVal y
    let d ← b64CharVal z
    let tail ← b64Decode rest
    some ((a * 4 + b / 16) :: (b % 16 * 16 + c / 4) :: (c % 4 * 64 + d) :: tail)
  | _ => none

/-- The cryptographic primitives of the cryptography library, abstract over
byte lists: SHA-256, and the PKCS#1 v1.5 RSA signature and verification
primitives over a digest for one fixed key pair. -/
structure RsaPrims where
  sha256 : List Nat → List Nat
  rsaSignPkcs1 : List Nat → List Nat
  rsaVerifyPkcs1 : List Nat → List Nat → Bool

/-- private_key.sign(data, padding.PKCS1v15(), hashes.SHA256()): the library
itself hashes data with SHA-256 before applying the PKCS#1 v1.5 RSA
signature primitive. -/
def librarySign (p : RsaPrims) (data : List Nat) : List Nat :=
  p.rsaSignPkcs1 (p.sha256 data)

/-- public_key.verify(sig, data, padding.PKCS1v15(), hashes.SHA256()): hashes
data once and checks the signature against that digest. -/
def libraryVerify (p : RsaPrims) (sig data : List Nat) : Bool :=
  p.rsaVerifyPkcs1 sig (p.sha256 data)

/-- _sign_request (arxiv_fetch.py lines 46-61): hash the request body with
SHA-256, sign that digest with sign(..., PKCS1v15(), SHA256()), and
Base64-encode the signature. -/
def sign_request (p : RsaPrims) (body : List Nat) : List Char :=
  b64Encode (librarySign p (p.sha256 body))

/-- How often an id occurs among emitted records. -/
def countIds (rs : List Record) (x : String) : Nat :=
  rs.countP (fun r => r.arxiv_id == x)

/-!  ###  Helper lemmas  -/

theorem splitChar_ne_nil (sep : Char) (l : List Char) : splitChar sep l ≠ [] := by
  cases l with
  | nil => simp [splitChar]
  | cons c cs =>
    simp only [splitChar]
    split <;> simp

theorem splitChar_headD (sep : Char) (l : List Char) :
    (splitChar sep l).headD [] = l.takeWhile (fun c => c != sep) := by
  induction l with
  | nil => simp [splitChar]
  | cons c cs ih =>
    simp only [splitChar, List.takeWhile_cons]
    by_cases h : c = sep
    · simp [h]
    · simp only [List.headD_eq_head?] at ih
      simp [h, ih]

theorem not_mem_splitChar_headD (sep : Char) (l : List Char) :
    sep ∉ (splitChar sep l).headD [] := by
  rw [splitChar_headD]
  intro h
  have := List.mem_takeWhile_imp h
  simp at this

theorem truthy_getD_ne (o : Option String) (h : truthy o = true) : o.getD "" ≠ "" := by
  cases o with
  | none => simp [truthy] at h
  | some s =>
    simp only [truthy, bne_iff_ne, ne_eq, decide_eq_true_eq] at h
    simpa using h

theorem entry_step_some (utcOff : Int) (s : List String) (e : Entry) (r : Record)
    (h : entry_step utcOff s e = some r) :
    r.authors ≠ [] ∧ r.categories ≠ [] ∧
    (∃ t, t ≠ "" ∧ r.title = pyStrip t) ∧ (∃ t, t ≠ "" ∧ r.abstract = pyStrip t) ∧
    r.arxiv_id ∉ s ∧ 'v' ∉ r.arxiv_id.data := by
  by_cases hT : (truthy e.idText && truthy e.titleText &&
      truthy e.summaryText && truthy e.publishedText) = true
  case neg => unfold entry_step at h; simp [hT] at h
  case pos =>
    by_cases hMem : normalizeId (e.idText.getD "") ∈ s
    · unfold entry_step at h; simp [hT, hMem] at h
    · by_cases hA : e.authorNames.filterMap id = []
      · unfold entry_step at h; simp [hT, hMem, hA] at h
      · by_cases hC : e.categoryTerms.filterMap id = []
        · unfold entry_step at h; simp [hT, hMem, hA, hC] at h
        · cases hD : parse_datetime utcOff (e.publishedText.getD "") with
          | none => unfold entry_step at h; simp [hT, hMem, hA, hC, hD] at h
          | some ts =>
            unfold entry_step at h
            simp only [hT, hMem, hA, hC, hD, if_true, if_false] at h
            rw [Option.some_inj] at h
            subst h
            simp only [Bool.and_eq_true] at hT
            refine ⟨hA, hC,
              ⟨e.titleText.getD "", truthy_getD_ne _ hT.1.1.2, rfl⟩,
              ⟨e.summaryText.getD "", truthy_getD_ne _ hT.1.2, rfl⟩, hMem, ?_⟩
            exact not_mem_splitChar_headD 'v' _

theorem entry_step_via_parse (utcOff : Int) (s : List String) (e : Entry) :
    entry_step utcOff s e =
      (entry_parse utcOff e).bind
        (fun r => if r.arxiv_id ∈ s then none else some r) := by
  unfold entry_parse entry_step
  by_cases hT : (truthy e.idText && truthy e.titleText &&
      truthy e.summaryText && truthy e.publishedText) = true
  · by_cases hA : e.authorNames.filterMap id = []
    · simp [hT, hA]
    · by_cases hC : e.categoryTerms.filterMap id = []
      · simp [hT, hA, hC]
      · cases hD : parse_datetime utcOff (e.publishedText.getD "") with
        | none => simp [hT, hA, hC, hD]
        | some ts =>
          by_cases hMem : normalizeId (e.idText.getD "") ∈ s
          · simp [hT, hA, hC, hD, hMem]
          · simp [hT, hA, hC, hD, hMem]
  · simp [hT]

theorem process_entries_skip (utcOff : Int) (s : List String) (e : Entry)
    (es : List Entry) (h : entry_step utcOff s e = none) :
    process_entries utcOff s (e :: es) = process_entries utcOff s es := by
  simp [process_entries, h]

theorem process_entries_mono (utcOff : Int) (s : List String) (es : List Entry)
    (x : String) (h : x ∈ s) : x ∈ (process_entries utcOff s es).2 := by
  induction es generalizing s with
  | nil => simpa [process_entries] using h
  | cons e es ih =>
    cases hstep : entry_step utcOff s e with
    | none => simpa [process_entries, hstep] using ih s h
    | some r =>
      simp only [process_entries, hstep]
      exact ih (r.arxiv_id :: s) (List.mem_cons_of_mem _ h)

theorem countIds_zero_of_mem (utcOff : Int) (s : List String) (es : List Entry)
    (x : String) (h : x ∈ s) : countIds (process_entries utcOff s es).1 x = 0 := by
  induction es generalizing s with
  | nil => simp [process_entries, countIds]
  | cons e es ih =>
    cases hstep : entry_step utcOff s e with
    | none => simpa [process_entries, hstep] using ih s h
    | some r =>
      have hr := entry_step_some utcOff s e r hstep
      have hne : r.arxiv_id ≠ x := fun hEq => hr.2.2.2.2.1 (hEq ▸ h)
      simp only [process_entries, hstep, countIds, List.countP_cons]
      have : (r.arxiv_id == x) = false := by simpa using hne
      simp only [this, if_false]
      simpa [countIds] using ih (r.arxiv_id :: s) (List.mem_cons_of_mem _ h)

theorem countIds_le_one (utcOff : Int) (s : List String) (es : List Entry)
    (x : String) (h : x ∉ s) :
    countIds (process_entries utcOff s es).1 x ≤ 1 ∧
    (x ∈ (process_entries utcOff s es).2 ↔ countIds (process_entries utcOff s es).1 x = 1) := by
  induction es generalizing s with
  | nil =>
    refine ⟨by simp [process_entries, countIds], ?_⟩
    simp [process_entries, countIds, h]
  | cons e es ih =>
    cases hstep : entry_step utcOff s e with
    | none =>
      rw [process_entries_skip _ _ _ _ hstep]
      exact ih s h
    | some r =>
      have h1 : (process_entries utcOff s (e :: es)).1
          = r :: (process_entries utcOff (r.arxiv_id :: s) es).1 := by
        simp [process_entries, hstep]
      have h2 : (process_entries utcOff s (e :: es)).2
          = (process_entries utcOff (r.arxiv_id :: s) es).2 := by
        simp [process_entries, hstep]
      rw [h1, h2]
      by_cases hEq : r.arxiv_id = x
      · have hz := countIds_zero_of_mem utcOff (r.arxiv_id :: s) es x (by simp [hEq])
        have hmem := process_entries_mono utcOff (r.arxiv_id :: s) es x (by simp [hEq])
        have hb : (r.arxiv_id == x) = true := by simpa using hEq
        simp only [countIds] at hz ⊢
        simp [List.countP_cons, hb, hz, hmem]
      · have hx2 : x ∉ r.arxiv_id :: s := by
          intro hc
          rcases List.mem_cons.1 hc with hc | hc
          · exact hEq hc.symm
          · exact h hc
        have hih := ih (r.arxiv_id :: s) hx2
        have hb : (r.arxiv_id == x) = false := by simpa using hEq
        simp only [countIds] at hih ⊢
        simpa [List.countP_cons, hb] using hih

theorem countIds_one_of_witness (utcOff : Int) (s : List String) (es : List Entry)
    (x : String) (hx : x ∉ s)
    (hw : ∃ e ∈ es, ∃ r, entry_parse utcOff e = some r ∧ r.arxiv_id = x) :
    countIds (process_entries utcOff s es).1 x = 1 := by
  induction es generalizing s with
  | nil => simp at hw
  | cons e es ih =>
    cases hstep : entry_step utcOff s e with
    | none =>
      rcases hw with ⟨e', he', r', hp', hid'⟩
      rcases List.mem_cons.1 he' with rfl | hmem
      · exfalso
        rw [entry_step_via_parse, hp'] at hstep
        simp [hid', hx] at hstep
      · simp only [process_entries, hstep]
        exact ih s hx ⟨e', hmem, r', hp', hid'⟩
    | some r =>
      by_cases hEq : r.arxiv_id = x
      · have hz := countIds_zero_of_mem utcOff (r.arxiv_id :: s) es x (by simp [hEq])
        have hb : (r.arxiv_id == x) = true := by simpa using hEq
        have h1 : (process_entries utcOff s (e :: es)).1
            = r :: (process_entries utcOff (r.arxiv_id :: s) es).1 := by
          simp [process_entries, hstep]
        rw [h1]
        simp only [countIds] at hz ⊢
        simp [List.countP_cons, hb, hz]
      · have hx2 : x ∉ r.arxiv_id :: s := by
          simp only [List.mem_cons]
          rintro (hc | hc)
          · exact hEq hc.symm
          · exact hx hc
        have hb : (r.arxiv_id == x) = false := by simpa using hEq
        rcases hw with ⟨e', he', r', hp', hid'⟩
        rcases List.mem_cons.1 he' with rfl | hmem
        · exfalso
          rw [entry_step_via_parse, hp'] at hstep
          by_cases hm : r'.arxiv_id ∈ s
          · simp [hm] at hstep
          · simp only [Option.some_bind, if_neg hm, Option.some_inj] at hstep
            rw [hstep] at hid'
            exact hEq hid'
        · have h1 : (process_entries utcOff s (e :: es)).1
              = r :: (process_entries utcOff (r.arxiv_id :: s) es).1 := by
            simp [process_entries, hstep]
          rw [h1]
          simp only [countIds, List.countP_cons, hb, if_false]
          simpa [countIds] using ih (r.arxiv_id :: s) hx2 ⟨e', hmem, r', hp', hid'⟩

/-!  ###  Claim theorems  -/

/-- Claim C2 (code_bug evidence): _parse_datetime converts the published
string through a naive datetime whose timestamp() call consults the host
local timezone, so the same input string yields different Unix timestamps
under different host offsets.  At UTC offset 0 the sample instant maps to
1705307400 as the claim demands, but at offset +3600 (for example CET in
winter) it maps to 1705303800, so the result is not the timestamp of the UTC
instant independent of the host zone.  A string deviating by a space instead
of the T separator is rejected (the per-entry skip path). -/
theorem parse_datetime_depends_on_host_timezone :
    parse_datetime 0 "2024-01-15T08:30:00Z" = some 1705307400 ∧
    parse_datetime 3600 "2024-01-15T08:30:00Z" = some 1705303800 ∧
    parse_datetime 3600 "2024-01-15T08:30:00Z" ≠ parse_datetime 0 "2024-01-15T08:30:00Z" ∧
    parse_datetime 0 "2024-01-15 08:30:00Z" = none := by
  decide

/-- Claim C5 as stated is false: the code truncates the last segment at the
first v regardless of what follows it, so an id whose last segment is abcvx
(v followed by x, not by a digit) is cut to abc, while the claimed rule keeps
abcvx. -/
theorem version_truncation_cex :
    normalizeId "http://x/abcvx" = "abc" ∧
    claimNormalizeId "http://x/abcvx" = "abcvx" ∧
    normalizeId "http://x/abcvx" ≠ claimNormalizeId "http://x/abcvx" := by
  decide

/-- Claim C5 amended: the normalized identifier equals the last slash-delimited
segment of the raw id URI truncated at the first occurrence of the literal v,
regardless of what follows that v. -/
theorem normalize_id_truncates_at_first_v (s : String) :
    normalizeId s =
      ⟨((splitChar '/' s.data).getLastD []).takeWhile (fun c => c != 'v')⟩ :=
  congrArg String.mk (splitChar_headD 'v' _)

/-- Claim C4 as stated is false: a title consisting only of whitespace passes
the required-field truthiness check (line 117) but is stripped to the empty
string at line 161, so the parser emits a Record whose whitespace-trimmed
title is empty instead of skipping the entry. -/
theorem whitespace_title_record_cex :
    ((process_entries 0 []
      [⟨some "http://arxiv.org/abs/1234.5678", some " ", some "abs",
        some "2024-01-15T08:30:00Z", [some "Alice"], [some "cs.AI"]⟩]).1.map
      Record.title) = [""] := by
  decide

/-- Claim C4 amended: every emitted Record has raw title and abstract text
that was non-empty before trimming (the stored trimmed value may be empty for
whitespace-only text), at least one author, at least one category, and an id
containing no v at all (hence no version suffix); an entry failing any check
is skipped without affecting how the remaining sibling entries are parsed. -/
theorem emitted_record_fields (utcOff : Int) (s : List String) (es : List Entry) :
    (∀ r ∈ (process_entries utcOff s es).1,
      r.authors ≠ [] ∧ r.categories ≠ [] ∧
      (∃ t, t ≠ "" ∧ r.title = pyStrip t) ∧ (∃ t, t ≠ "" ∧ r.abstract = pyStrip t) ∧
      'v' ∉ r.arxiv_id.data) ∧
    (∀ e es', entry_step utcOff s e = none →
      process_entries utcOff s (e :: es') = process_entries utcOff s es') := by
  constructor
  · induction es generalizing s with
    | nil => simp [process_entries]
    | cons e es ih =>
      intro r hr
      cases hstep : entry_step utcOff s e with
      | none =>
        rw [process_entries_skip _ _ _ _ hstep] at hr
        exact ih s r hr
      | some r0 =>
        have h1 : (process_entries utcOff s (e :: es)).1
            = r0 :: (process_entries utcOff (r0.arxiv_id :: s) es).1 := by
          simp [process_entries, hstep]
        rw [h1] at hr
        rcases List.mem_cons.1 hr with rfl | hr
        · have hp := entry_step_some utcOff s e r hstep
          exact ⟨hp.1, hp.2.1, hp.2.2.1, hp.2.2.2.1, hp.2.2.2.2.2⟩
        · exact ih (r0.arxiv_id :: s) r hr
  · intro e es' h
    exact process_entries_skip utcOff s e es' h

/-- Witness for the amended C4: the properties hold of the concrete record
parsed from a well-formed entry, and an entry with a missing id is skipped
without affecting its sibling. -/
theorem emitted_record_fields_witness :
    ((⟨"1234.5678", "Title", ["Alice"], "abs", ["cs.AI"], 1705307400⟩ : Record).authors ≠ [] ∧
     (⟨"1234.5678", "Title", ["Alice"], "abs", ["cs.AI"], 1705307400⟩ : Record).categories ≠ [] ∧
     (∃ t, t ≠ "" ∧
       (⟨"1234.5678", "Title", ["Alice"], "abs", ["cs.AI"], 1705307400⟩ : Record).title = pyStrip t) ∧
     (∃ t, t ≠ "" ∧
       (⟨"1234.5678", "Title", ["Alice"], "abs", ["cs.AI"], 1705307400⟩ : Record).abstract = pyStrip t) ∧
     'v' ∉ (⟨"1234.5678", "Title", ["Alice"], "abs", ["cs.AI"], 1705307400⟩ : Record).arxiv_id.data) ∧
    process_entries 0 []
        (⟨none, some "T", some "A", some "2024-01-15T08:30:00Z", [some "Alice"], [some "cs.AI"]⟩ ::
          [⟨some "http://arxiv.org/abs/1234.5678", some "Title ", some " abs",
            some "2024-01-15T08:30:00Z", [some "Alice"], [some "cs.AI"]⟩]) =
      process_entries 0 []
        [⟨some "http://arxiv.org/abs/1234.5678", some "Title ", some " abs",
          some "2024-01-15T08:30:00Z", [some "Alice"], [some "cs.AI"]⟩] :=
  ⟨(emitted_record_fields 0 []
      [⟨some "http://arxiv.org/abs/1234.5678", some "Title ", some " abs",
        some "2024-01-15T08:30:00Z", [some "Alice"], [some "cs.AI"]⟩]).1
      ⟨"1234.5678", "Title", ["Alice"], "abs", ["cs.AI"], 1705307400⟩ (by decide),
   (emitted_record_fields 0 []
      [⟨some "http://arxiv.org/abs/1234.5678", some "Title ", some " abs",
        some "2024-01-15T08:30:00Z", [some "Alice"], [some "cs.AI"]⟩]).2
      ⟨none, some "T", some "A", some "2024-01-15T08:30:00Z", [some "Alice"], [some "cs.AI"]⟩
      [⟨some "http://arxiv.org/abs/1234.5678", some "Title ", some " abs",
        some "2024-01-15T08:30:00Z", [some "Alice"], [some "cs.AI"]⟩] (by decide)⟩

/-- Claim C6 confirmed: across one run, an id is emitted exactly once even
when two parsed responses both contain an entry carrying it — the id enters
the dedup set only on successful record construction, later entries with that
id are skipped, and an entry dropped by any per-entry check never enters the
set (second conjunct: a dropped entry leaves both the output and the set
unchanged). -/
theorem dedup_yields_id_once :
    (∀ (utcOff : Int) (s : List String) (es1 es2 : List Entry) (x : String),
      x ∉ s →
      (∃ e ∈ es1, ∃ r, entry_parse utcOff e = some r ∧ r.arxiv_id = x) →
      countIds ((process_entries utcOff s es1).1 ++
        (process_entries utcOff (process_entries utcOff s es1).2 es2).1) x = 1) ∧
    (∀ (utcOff : Int) (s : List String) (e : Entry) (es : List Entry),
      entry_parse utcOff e = none →
      process_entries utcOff s (e :: es) = process_entries utcOff s es) := by
  constructor
  · intro utcOff s es1 es2 x hx hw
    have h1 := countIds_one_of_witness utcOff s es1 x hx hw
    have hmem : x ∈ (process_entries utcOff s es1).2 :=
      (countIds_le_one utcOff s es1 x hx).2.mpr h1
    have h2 := countIds_zero_of_mem utcOff (process_entries utcOff s es1).2 es2 x hmem
    simp only [countIds, List.countP_append] at h1 h2 ⊢
    omega
  · intro utcOff s e es h
    apply process_entries_skip
    rw [entry_step_via_parse, h]
    rfl

/-- Witness for C6: two single-entry responses carrying versions v1 and v2 of
the same paper yield its id exactly once, and an entry with no authors is
dropped without entering the state. -/
theorem dedup_yields_id_once_witness :
    countIds ((process_entries 0 []
        [⟨some "http://arxiv.org/abs/7777.1v1", some "T1", some "A1",
          some "2024-01-15T08:30:00Z", [some "Alice"], [some "cs.AI"]⟩]).1 ++
      (process_entries 0
        (process_entries 0 []
          [⟨some "http://arxiv.org/abs/7777.1v1", some "T1", some "A1",
            some "2024-01-15T08:30:00Z", [some "Alice"], [some "cs.AI"]⟩]).2
        [⟨some "http://arxiv.org/abs/7777.1v2", some "T2", some "A2",
          some "2024-01-16T09:00:00Z", [some "Bob"], [some "cs.LG"]⟩]).1) "7777.1" = 1 ∧
    process_entries 0 []
        [⟨some "http://arxiv.org/abs/8888.1", some "T", some "A",
          some "2024-01-15T08:30:00Z", [], [some "cs.AI"]⟩] =
      process_entries 0 [] [] :=
  ⟨dedup_yields_id_once.1 0 []
      [⟨some "http://arxiv.org/abs/7777.1v1", some "T1", some "A1",
        some "2024-01-15T08:30:00Z", [some "Alice"], [some "cs.AI"]⟩]
      [⟨some "http://arxiv.org/abs/7777.1v2", some "T2", some "A2",
        some "2024-01-16T09:00:00Z", [some "Bob"], [some "cs.LG"]⟩] "7777.1"
      (by decide)
      ⟨⟨some "http://arxiv.org/abs/7777.1v1", some "T1", some "A1",
        some "2024-01-15T08:30:00Z", [some "Alice"], [some "cs.AI"]⟩, by decide,
       ⟨"7777.1", "T1", ["Alice"], "A1", ["cs.AI"], 1705307400⟩, by decide, by decide⟩,
   dedup_yields_id_once.2 0 []
      ⟨some "http://arxiv.org/abs/8888.1", some "T", some "A",
        some "2024-01-15T08:30:00Z", [], [some "cs.AI"]⟩ [] (by decide)⟩

theorem expected_offsets_length (total : Int) (start : Nat) :
    (expected_offsets total start).length = max 1 (((total - start).toNat + 99) / 100) := by
  have H : ∀ (m start : Nat), total.toNat - start ≤ m →
      (expected_offsets total start).length = max 1 (((total - start).toNat + 99) / 100) := by
    intro m
    induction m with
    | zero =>
      intro start h0
      rw [expected_offsets]
      by_cases hend : total ≤ (start : Int) + 100
      · rw [if_pos hend]
        simp only [List.length_singleton]
        rw [Nat.max_def]
        split <;> omega
      · exfalso
        omega
    | succ m ih =>
      intro start h0
      rw [expected_offsets]
      by_cases hend : total ≤ (start : Int) + 100
      · rw [if_pos hend]
        simp only [List.length_singleton]
        rw [Nat.max_def]
        split <;> omega
      · rw [if_neg hend]
        simp only [List.length_cons, ih (start + 100) (by omega)]
        rw [Nat.max_def, Nat.max_def]
        split <;> split <;> omega
  exact H total.toNat start (by omega)

theorem loop_fetches_stable (cfg : Cfg) (fetchO : Nat → FetchOutcome)
    (postO : Nat → PostOutcome) (saveO : Nat → WriteOutcome) (utcOff : Int) (total : Int)
    (hstable : ∀ off, ∃ st body, fetchO off = .resp st body ∧ ¬(400 ≤ st ∧ st < 600) ∧
        ∃ txt entries, body = .feed (some txt) entries ∧ pyInt txt = some total) :
    ∀ fuel start nPost nSave processed,
      (expected_offsets total start).length ≤ fuel →
      (collect_papers_loop cfg fetchO postO saveO utcOff fuel start nPost nSave processed).fetches
        = expected_offsets total start := by
  intro fuel
  induction fuel with
  | zero =>
    intro start nPost nSave processed hfuel
    rw [expected_offsets_length] at hfuel
    omega
  | succ fuel ih =>
    intro start nPost nSave processed hfuel
    obtain ⟨st, body, hfo, hstatus, txt, entries, hbody, hint⟩ := hstable start
    subst hbody
    simp only [collect_papers_loop, hfo]
    rw [if_neg hstatus]
    simp only [parse_response, hint]
    by_cases hend : total ≤ (start : Int) + 100
    · rw [expected_offsets, if_pos hend]
      simp [hend]
    · rw [expected_offsets, if_neg hend]
      have hlen : (expected_offsets total (start + 100)).length ≤ fuel := by
        rw [expected_offsets, if_neg hend] at hfuel
        simpa using Nat.lt_succ_iff.mp (Nat.lt_of_lt_of_le (Nat.lt_succ_self _) hfuel)
      simp only [hend, if_false]
      simp [ih (start + 100) _ _ _ hlen]

theorem loop_fetches_sink_independent (cfg : Cfg) (fetchO : Nat → FetchOutcome)
    (postO postO' : Nat → PostOutcome) (saveO saveO' : Nat → WriteOutcome) (utcOff : Int) :
    ∀ fuel start nPost nPost' nSave nSave' processed,
      (collect_papers_loop cfg fetchO postO saveO utcOff fuel start nPost nSave processed).fetches
        = (collect_papers_loop cfg fetchO postO' saveO' utcOff fuel start nPost' nSave' processed).fetches := by
  intro fuel
  induction fuel with
  | zero => intro start nPost nPost' nSave nSave' processed; rfl
  | succ fuel ih =>
    intro start nPost nPost' nSave nSave' processed
    cases hfo : fetchO start with
    | exn => simp [collect_papers_loop, hfo]
    | resp st body =>
      by_cases hstatus : 400 ≤ st ∧ st < 600
      · simp [collect_papers_loop, hfo, hstatus]
      · cases hpr : parse_response utcOff processed body with
        | error e => simp [collect_papers_loop, hfo, hstatus, hpr]
        | ok res =>
          obtain ⟨papers, total, processed2⟩ := res
          by_cases hend : total ≤ (start : Int) + 100
          · simp [collect_papers_loop, hfo, hstatus, hpr, hend]
          · simp [collect_papers_loop, hfo, hstatus, hpr, hend]
            exact ih _ _ _ _ _ _

/-- Claim C7 as stated is false at total_results = 0: the loop always issues
its first fetch before it can learn the total, so a stable total of 0 costs
one iteration while the claimed bound ceil(0 / 100) is zero. -/
theorem pagination_zero_total_cex :
    (collect_papers_loop ⟨"local", none⟩
        (fun _ => .resp 200 (.feed (some "0") [])) (fun _ => .exn) (fun _ => .ok)
        0 5 0 0 0 []).fetches.length = 1 ∧
    ((0 + 99) / 100 : Nat) = 0 := by
  constructor
  · decide
  · decide

/-- Claim C7 amended: for every stable total_results the loop fetches exactly
the offsets 0, 100, 200, ... stopping as soon as offset + 100 reaches the
total, which takes max 1 (ceil(total / 100)) iterations — at least one fetch
always happens, and for total_results = 250 the fetched offsets are exactly
0, 100 and 200. -/
theorem pagination_iteration_count (cfg : Cfg) (fetchO : Nat → FetchOutcome)
    (postO : Nat → PostOutcome) (saveO : Nat → WriteOutcome) (utcOff : Int)
    (total : Int) (fuel : Nat)
    (hstable : ∀ off, ∃ st body, fetchO off = .resp st body ∧ ¬(400 ≤ st ∧ st < 600) ∧
        ∃ txt entries, body = .feed (some txt) entries ∧ pyInt txt = some total)
    (hfuel : (expected_offsets total 0).length ≤ fuel) :
    (collect_papers_loop cfg fetchO postO saveO utcOff fuel 0 0 0 []).fetches
        = expected_offsets total 0 ∧
    (collect_papers_loop cfg fetchO postO saveO utcOff fuel 0 0 0 []).fetches.length
        = max 1 ((total.toNat + 99) / 100) ∧
    expected_offsets (250 : Int) 0 = [0, 100, 200] := by
  have h := loop_fetches_stable cfg fetchO postO saveO utcOff total hstable fuel 0 0 0 [] hfuel
  have heo : expected_offsets (250 : Int) 0 = [0, 100, 200] := by
    rw [expected_offsets, if_neg (by norm_num), expected_offsets, if_neg (by norm_num),
        expected_offsets, if_pos (by norm_num)]
  refine ⟨h, ?_, heo⟩
  rw [h, expected_offsets_length]
  omega

/-- Witness for the amended C7: a stable total of 250 with successful pages
gives exactly the three fetches at offsets 0, 100, 200. -/
theorem pagination_iteration_count_witness :
    (collect_papers_loop ⟨"local", none⟩
        (fun _ => .resp 200 (.feed (some "250") [])) (fun _ => .exn) (fun _ => .ok)
        0 3 0 0 0 []).fetches = [0, 100, 200] := by
  have h := pagination_iteration_count ⟨"local", none⟩
      (fun _ => .resp 200 (.feed (some "250") [])) (fun _ => .exn) (fun _ => .ok)
      0 250 3
      (fun _ => ⟨200, .feed (some "250") [], rfl, by norm_num, "250", [], rfl, by decide⟩)
      (by
        rw [expected_offsets_length]
        decide)
  rw [h.1, h.2.2]

/-- Claim C1 as stated is false: with the api sink selected, a transport
failure on the very first POST is caught inside _send_to_api_service and only
printed; the run then continues and fetches the remaining pages (offsets 100
and 200) instead of aborting. -/
theorem delivery_failure_continues_run_cex :
    collect_papers_loop ⟨"api", some "http://svc"⟩
        (fun _ => .resp 200 (.feed (some "250")
          [⟨some "http://arxiv.org/abs/4242.1", some "T", some "A",
            some "2024-01-15T08:30:00Z", [some "Alice"], [some "cs.AI"]⟩]))
        (fun _ => .exn) (fun _ => .ok) 0 3 0 0 0 []
      = ⟨[0, 100, 200],
         [[⟨"4242.1", "T", ["Alice"], "A", ["cs.AI"], 1705307400⟩], [], []],
         [[⟨"4242.1", "T", ["Alice"], "A", ["cs.AI"], 1705307400⟩]],
         [],
         ["Failed to send papers to API service: transport error"]⟩ := by
  decide

/-- Claim C1 amended: a delivery failure is caught inside the sink, which
logs it and returns normally, and the pagination loop goes on: the sequence
of fetched offsets is entirely independent of the POST and file-write
outcomes. -/
theorem delivery_failure_swallowed_and_run_continues :
    (∀ (url : Option String) (post : PostOutcome) (n : Nat) (e : String),
      urlTruthy url = true → send_try post n = .error e →
      send_to_api_service url post n = ["Failed to send papers to API service: " ++ e]) ∧
    (∀ (cfg : Cfg) (fetchO : Nat → FetchOutcome) (postO postO' : Nat → PostOutcome)
       (saveO saveO' : Nat → WriteOutcome) (utcOff : Int)
       (fuel start nPost nPost' nSave nSave' : Nat) (processed : List String),
      (collect_papers_loop cfg fetchO postO saveO utcOff fuel start nPost nSave processed).fetches
        = (collect_papers_loop cfg fetchO postO' saveO' utcOff fuel start nPost' nSave' processed).fetches) := by
  constructor
  · intro url post n e hu he
    simp [send_to_api_service, hu, he]
  · intro cfg fetchO postO postO' saveO saveO' utcOff fuel start nPost nPost' nSave nSave' processed
    exact loop_fetches_sink_independent cfg fetchO postO postO' saveO saveO' utcOff
      fuel start nPost nPost' nSave nSave' processed

/-- Witness for the amended C1: a failing POST is logged and swallowed, and a
run fetches the same offsets whether its POSTs fail or succeed. -/
theorem delivery_failure_swallowed_witness :
    send_to_api_service (some "http://svc") .exn 1
      = ["Failed to send papers to API service: transport error"] ∧
    (collect_papers_loop ⟨"api", some "http://svc"⟩ (fun _ => .exn) (fun _ => .exn)
        (fun _ => .ok) 0 2 0 0 0 []).fetches
      = (collect_papers_loop ⟨"api", some "http://svc"⟩ (fun _ => .exn) (fun _ => .resp 200)
        (fun _ => .exn) 0 2 0 0 0 []).fetches :=
  ⟨delivery_failure_swallowed_and_run_continues.1 (some "http://svc") .exn 1
      "transport error" (by decide) (by decide),
   delivery_failure_swallowed_and_run_continues.2 ⟨"api", some "http://svc"⟩
      (fun _ => .exn) (fun _ => .exn) (fun _ => .resp 200) (fun _ => .ok) (fun _ => .exn)
      0 2 0 0 0 0 0 []⟩

/-- Claim C3 as stated is false: a transport failure on the first search-API
fetch is caught by the except inside the pagination loop, which prints and
breaks; main then returns normally, so the process exits with status zero
rather than nonzero. -/
theorem fetch_failure_exits_zero_cex :
    exit_code (main_model ⟨"local", "", "", none, true⟩
        (fun _ => .exn) (fun _ => .exn) (fun _ => .ok) 0 5) = 0 ∧
    main_model ⟨"local", "", "", none, true⟩
        (fun _ => .exn) (fun _ => .exn) (fun _ => .ok) 0 5
      = .ok ([], some ⟨[0], [], [], [], ["Error occurred: transport error"]⟩) := by
  decide

/-- Claim C3 amended: fetch failures and top-level parse errors never unwind
out of the pagination loop — the loop logs them and breaks, and the process
exits with status zero whatever the HTTP outcomes were; the only nonzero exit
is an exception escaping startup, namely a present but unloadable signing key
in api mode with signing enabled. -/
theorem exit_status_zero_unless_startup_failure :
    (∀ (env : Env) (fetchO : Nat → FetchOutcome) (postO : Nat → PostOutcome)
       (saveO : Nat → WriteOutcome) (utcOff : Int) (fuel : Nat),
      ¬(pyLower env.enableSignatureVar = "true" ∧ pyLower env.outputModeVar = "api" ∧
        env.apiServiceUrlVar ≠ "" ∧ env.privateKeyVar ≠ none ∧ env.keyLoadable = false) →
      exit_code (main_model env fetchO postO saveO utcOff fuel) = 0) ∧
    (∀ (env : Env) (fetchO : Nat → FetchOutcome) (postO : Nat → PostOutcome)
       (saveO : Nat → WriteOutcome) (utcOff : Int) (fuel : Nat),
      pyLower env.enableSignatureVar = "true" → pyLower env.outputModeVar = "api" →
      env.apiServiceUrlVar ≠ "" → env.privateKeyVar ≠ none → env.keyLoadable = false →
      exit_code (main_model env fetchO postO saveO utcOff fuel) = 1) := by
  constructor
  · intro env fetchO postO saveO utcOff fuel hnot
    by_cases hm : pyLower env.outputModeVar = "api"
    · by_cases hsig : pyLower env.enableSignatureVar = "true"
      · by_cases hurl : env.apiServiceUrlVar = ""
        · simp [main_model, exit_code, hm, hsig, hurl]
        · cases hk : env.privateKeyVar with
          | none => simp [main_model, exit_code, hm, hsig, hurl, hk]
          | some k =>
            cases hl : env.keyLoadable with
            | true => simp [main_model, exit_code, hm, hsig, hurl, hk, hl]
            | false => exact absurd ⟨hsig, hm, hurl, by simp [hk], hl⟩ hnot
      · by_cases hurl : env.apiServiceUrlVar = ""
        · simp [main_model, exit_code, hm, hsig, hurl]
        · simp [main_model, exit_code, hm, hsig, hurl]
    · by_cases hloc : pyLower env.outputModeVar = "local"
      · by_cases hsig : pyLower env.enableSignatureVar = "true"
        · simp [main_model, exit_code, hm, hloc, hsig]
        · simp [main_model, exit_code, hm, hloc, hsig]
      · simp [main_model, exit_code, hm, hloc]
  · intro env fetchO postO saveO utcOff fuel hsig hmode hurl hkey hload
    cases hk : env.privateKeyVar with
    | none => exact absurd hk hkey
    | some k => simp [main_model, exit_code, hsig, hmode, hurl, hk, hload]

/-- Witness for the amended C3: a run whose every fetch fails still exits
zero, and an api-mode run with signing enabled and an unloadable key exits
nonzero. -/
theorem exit_status_witness :
    exit_code (main_model ⟨"local", "", "", none, true⟩
        (fun _ => .exn) (fun _ => .exn) (fun _ => .ok) 0 1) = 0 ∧
    exit_code (main_model ⟨"api", "true", "http://svc", some "key", false⟩
        (fun _ => .exn) (fun _ => .exn) (fun _ => .ok) 0 1) = 1 :=
  ⟨exit_status_zero_unless_startup_failure.1 ⟨"local", "", "", none, true⟩
      (fun _ => .exn) (fun _ => .exn) (fun _ => .ok) 0 1 (by decide),
   exit_status_zero_unless_startup_failure.2 ⟨"api", "true", "http://svc", some "key", false⟩
      (fun _ => .exn) (fun _ => .exn) (fun _ => .ok) 0 1
      (by decide) (by decide) (by decide) (by decide) (by decide)⟩

theorem hexDigitChar_ge_32 : ∀ n < 16, 32 ≤ (hexDigitChar n).toNat := by decide

theorem digitChar_ge_32 : ∀ n < 10, 32 ≤ (digitChar n).toNat := by decide

theorem escChar_ge_32 (c x : Char) (h : x ∈ escChar c) : 32 ≤ x.toNat := by
  unfold escChar at h
  by_cases h1 : c = '"'
  · simp only [h1, if_true] at h
    simp only [List.mem_cons, List.not_mem_nil, or_false] at h
    rcases h with h | h <;> simp [h]
  · rw [if_neg h1] at h
    by_cases h2 : c = '\\'
    · simp only [h2, if_pos] at h
      simp only [List.mem_cons, List.not_mem_nil, or_false] at h
      rcases h with h | h <;> simp [h]
    · rw [if_neg h2] at h
      by_cases h3 : c.toNat = 8
      · simp only [h3, if_pos] at h
        simp only [List.mem_cons, List.not_mem_nil, or_false] at h
        rcases h with h | h <;> simp [h]
      · rw [if_neg h3] at h
        by_cases h4 : c.toNat = 9
        · simp only [h4, if_pos] at h
          simp only [List.mem_cons, List.not_mem_nil, or_false] at h
          rcases h with h | h <;> simp [h]
        · rw [if_neg h4] at h
          by_cases h5 : c.toNat = 10
          · simp only [h5, if_pos] at h
            simp only [List.mem_cons, List.not_mem_nil, or_false] at h
            rcases h with h | h <;> simp [h]
          · rw [if_neg h5] at h
            by_cases h6 : c.toNat = 12
            · simp only [h6, if_pos] at h
              simp only [List.mem_cons, List.not_mem_nil, or_false] at h
              rcases h with h | h <;> simp [h]
            · rw [if_neg h6] at h
              by_cases h7 : c.toNat = 13
              · simp only [h7, if_pos] at h
                simp only [List.mem_cons, List.not_mem_nil, or_false] at h
                rcases h with h | h <;> simp [h]
              · rw [if_neg h7] at h
                by_cases h8 : c.toNat < 32
                · simp only [h8, if_pos, List.mem_cons, List.not_mem_nil, or_false] at h
                  rcases h with h | h | h | h | h | h
                  · simp [h]
                  · simp [h]
                  · simp [h]
                  · simp [h]
                  · rw [h]
                    exact hexDigitChar_ge_32 _ (by omega)
                  · rw [h]
                    exact hexDigitChar_ge_32 _ (Nat.mod_lt _ (by omega))
                · rw [if_neg h8] at h
                  simp only [List.mem_singleton] at h
                  subst h
                  omega

theorem encStr_ge_32 (s : List Char) (x : Char) (h : x ∈ encStr s) : 32 ≤ x.toNat := by
  unfold encStr at h
  rcases List.mem_cons.1 h with h | h
  · simp [h]
  rcases List.mem_append.1 h with h | h
  · rcases List.mem_flatten.1 h with ⟨l, hl, hx⟩
    rcases List.mem_map.1 hl with ⟨c, _, rfl⟩
    exact escChar_ge_32 c x hx
  · simp only [List.mem_singleton] at h
    simp [h]

theorem natDigits_ge_32 : ∀ (n : Nat) (x : Char), x ∈ natDigits n → 32 ≤ x.toNat := by
  intro n
  induction n using Nat.strong_induction_on with
  | _ n ih =>
    intro x hx
    rw [natDigits] at hx
    split at hx
    · simp only [List.mem_singleton] at hx
      subst hx
      next h => exact digitChar_ge_32 n h
    · rcases List.mem_append.1 hx with hx | hx
      · next h => exact ih (n / 10) (Nat.div_lt_self (by omega) (by omega)) x hx
      · simp only [List.mem_singleton] at hx
        subst hx
        exact digitChar_ge_32 _ (Nat.mod_lt _ (by omega))

theorem dumpInt_ge_32 (n : Int) (x : Char) (h : x ∈ dumpInt n) : 32 ≤ x.toNat := by
  unfold dumpInt at h
  split at h
  · rcases List.mem_cons.1 h with h | h
    · simp [h]
    · exact natDigits_ge_32 _ x h
  · exact natDigits_ge_32 _ x h

theorem dumpElems_str_ge_32 : ∀ (ss : List String) (x : Char),
    x ∈ dumpElems (ss.map strJ) → 32 ≤ x.toNat := by
  intro ss
  induction ss with
  | nil => intro x hx; simp [dumpElems] at hx
  | cons s tl ih =>
    intro x hx
    cases tl with
    | nil =>
      simp only [List.map_cons, List.map_nil, dumpElems, dumpJson, strJ] at hx
      exact encStr_ge_32 _ x hx
    | cons s2 tl2 =>
      simp only [List.map_cons, dumpElems, dumpJson, strJ] at hx
      rcases List.mem_append.1 hx with hx | hx
      · exact encStr_ge_32 _ x hx
      · rcases List.mem_cons.1 hx with hx | hx
        · simp [hx]
        rcases List.mem_cons.1 hx with hx | hx
        · simp [hx]
        · apply ih x
          simpa [dumpElems, List.map_cons] using hx

theorem dumpMembers_ge_32 (kvs : List (List Char × Json))
    (hv : ∀ p ∈ kvs, ∀ y, y ∈ dumpJson p.2 → 32 ≤ y.toNat)
    (hk : ∀ p ∈ kvs, ∀ y, y ∈ encStr p.1 → 32 ≤ y.toNat) :
    ∀ x ∈ dumpMembers kvs, 32 ≤ x.toNat := by
  induction kvs with
  | nil => simp [dumpMembers]
  | cons p tl ih =>
    obtain ⟨k, v⟩ := p
    intro x hx
    cases tl with
    | nil =>
      simp only [dumpMembers] at hx
      rcases List.mem_append.1 hx with hx | hx
      · exact hk ⟨k, v⟩ (List.mem_singleton.2 rfl) x hx
      rcases List.mem_cons.1 hx with hx | hx
      · simp [hx]
      rcases List.mem_cons.1 hx with hx | hx
      · simp [hx]
      · exact hv ⟨k, v⟩ (List.mem_singleton.2 rfl) x hx
    | cons q tl2 =>
      simp only [dumpMembers] at hx
      rcases List.mem_append.1 hx with hx | hx
      · rcases List.mem_append.1 hx with hx | hx
        · exact hk ⟨k, v⟩ (List.mem_cons_self _ _) x hx
        rcases List.mem_cons.1 hx with hx | hx
        · simp [hx]
        rcases List.mem_cons.1 hx with hx | hx
        · simp [hx]
        · exact hv ⟨k, v⟩ (List.mem_cons_self _ _) x hx
      · rcases List.mem_cons.1 hx with hx | hx
        · simp [hx]
        rcases List.mem_cons.1 hx with hx | hx
        · simp [hx]
        · exact ih (fun p hp y hy => hv p (List.mem_cons_of_mem _ hp) y hy)
            (fun p hp y hy => hk p (List.mem_cons_of_mem _ hp) y hy) x hx

theorem record_dump_ge_32 (r : Record) (x : Char)
    (h : x ∈ dumpJson (recordToJson r)) : 32 ≤ x.toNat := by
  have harr : ∀ (ss : List String) (y : Char),
      y ∈ dumpJson (Json.jarr (ss.map strJ)) → 32 ≤ y.toNat := by
    intro ss y hy
    simp only [dumpJson] at hy
    rcases List.mem_cons.1 hy with hy | hy
    · simp [hy]
    rcases List.mem_append.1 hy with hy | hy
    · exact dumpElems_str_ge_32 ss y hy
    · simp only [List.mem_singleton] at hy
      simp [hy]
  simp only [recordToJson, dumpJson] at h
  rcases List.mem_cons.1 h with h | h
  · rw [h]; decide
  rcases List.mem_append.1 h with h | h
  · refine dumpMembers_ge_32 _ ?_ ?_ x h
    · intro p hp y hy
      simp only [List.mem_cons, List.mem_singleton] at hp
      rcases hp with rfl | rfl | rfl | rfl | rfl | rfl | hp
      · exact encStr_ge_32 _ y (by simpa [dumpJson, strJ] using hy)
      · exact encStr_ge_32 _ y (by simpa [dumpJson, strJ] using hy)
      · exact harr _ y hy
      · exact encStr_ge_32 _ y (by simpa [dumpJson, strJ] using hy)
      · exact harr _ y hy
      · exact dumpInt_ge_32 _ y (by simpa [dumpJson] using hy)
      · simp at hp
    · intro p hp y hy
      simp only [List.mem_cons, List.mem_singleton] at hp
      rcases hp with rfl | rfl | rfl | rfl | rfl | rfl | hp
      · exact encStr_ge_32 _ y hy
      · exact encStr_ge_32 _ y hy
      · exact encStr_ge_32 _ y hy
      · exact encStr_ge_32 _ y hy
      · exact encStr_ge_32 _ y hy
      · exact encStr_ge_32 _ y hy
      · simp at hp
  · simp only [List.mem_singleton] at h
    rw [h]; decide

theorem splitChar_append_sep (c : Char) (l rest : List Char) (h : c ∉ l) :
    splitChar c (l ++ c :: rest) = l :: splitChar c rest := by
  induction l with
  | nil => simp [splitChar]
  | cons a l ih =>
    have ha : ¬a = c := fun hEq => h (by simp [hEq])
    simp only [List.cons_append, splitChar, ha, if_false, List.append_eq]
    rw [ih (fun hc => h (List.mem_cons_of_mem _ hc))]
    simp

theorem fileContent_lines (batch : List Record) :
    splitChar '\n' (fileContent batch)
      = batch.map (fun r => dumpJson (recordToJson r)) ++ [[]] := by
  induction batch with
  | nil => simp [fileContent, splitChar]
  | cons r tl ih =>
    have hnl : '\n' ∉ dumpJson (recordToJson r) := by
      intro hc
      have := record_dump_ge_32 r '\n' hc
      simp at this
    have hfc : fileContent (r :: tl)
        = dumpJson (recordToJson r) ++ '\n' :: fileContent tl := by
      simp [fileContent, recordLine]
    rw [hfc, splitChar_append_sep '\n' _ _ hnl, ih]
    simp

theorem loop_saves_eq (cfg : Cfg) (fetchO : Nat → FetchOutcome)
    (postO : Nat → PostOutcome) (saveO : Nat → WriteOutcome) (utcOff : Int)
    (hmode : cfg.output_mode ≠ "api") (hsave : ∀ i, saveO i = .ok) :
    ∀ fuel start nPost nSave processed,
      (collect_papers_loop cfg fetchO postO saveO utcOff fuel start nPost nSave processed).saves
        = ((collect_papers_loop cfg fetchO postO saveO utcOff fuel start nPost nSave processed).batches).filter
            (fun b => !b.isEmpty) := by
  intro fuel
  induction fuel with
  | zero => intro start nPost nSave processed; rfl
  | succ fuel ih =>
    intro start nPost nSave processed
    cases hfo : fetchO start with
    | exn => simp [collect_papers_loop, hfo]
    | resp st body =>
      by_cases hstatus : 400 ≤ st ∧ st < 600
      · simp [collect_papers_loop, hfo, hstatus]
      · cases hpr : parse_response utcOff processed body with
        | error e => simp [collect_papers_loop, hfo, hstatus, hpr]
        | ok res =>
          obtain ⟨papers, total, processed2⟩ := res
          have hs := hsave nSave
          cases hemp : papers.isEmpty with
          | true =>
            by_cases hend : total ≤ (start : Int) + 100
            · simp [collect_papers_loop, hfo, hstatus, hpr, hend, hemp, List.filter_cons]
            · simp [collect_papers_loop, hfo, hstatus, hpr, hend, hemp, List.filter_cons, ih]
          | false =>
            by_cases hend : total ≤ (start : Int) + 100
            · simp [collect_papers_loop, hfo, hstatus, hpr, hend, hemp, hmode, hs,
                List.filter_cons]
            · simp [collect_papers_loop, hfo, hstatus, hpr, hend, hemp, hmode, hs,
                List.filter_cons, ih]

/-- Claim C8 as stated is false: in local mode _save_to_local is invoked once
per fetched page, so one complete two-page run writes two files (one per
non-empty page batch), not one fresh file holding all of the run's records. -/
theorem local_mode_file_per_page_cex :
    (collect_papers_loop ⟨"local", none⟩
        (fun off => if off = 0 then
            .resp 200 (.feed (some "150")
              [⟨some "http://arxiv.org/abs/9999.1", some "T1", some "A1",
                some "2024-01-15T08:30:00Z", [some "Alice"], [some "cs.AI"]⟩])
          else
            .resp 200 (.feed (some "150")
              [⟨some "http://arxiv.org/abs/9999.2", some "T2", some "A2",
                some "2024-01-16T09:00:00Z", [some "Bob"], [some "cs.LG"]⟩]))
        (fun _ => .exn) (fun _ => .ok) 0 2 0 0 0 []).saves.length = 2 ∧
    (collect_papers_loop ⟨"local", none⟩
        (fun off => if off = 0 then
            .resp 200 (.feed (some "150")
              [⟨some "http://arxiv.org/abs/9999.1", some "T1", some "A1",
                some "2024-01-15T08:30:00Z", [some "Alice"], [some "cs.AI"]⟩])
          else
            .resp 200 (.feed (some "150")
              [⟨some "http://arxiv.org/abs/9999.2", some "T2", some "A2",
                some "2024-01-16T09:00:00Z", [some "Bob"], [some "cs.LG"]⟩]))
        (fun _ => .exn) (fun _ => .ok) 0 2 0 0 0 []).fetches = [0, 100] := by
  constructor
  · decide
  · decide

/-- Claim C8 amended: in local mode (writes succeeding) each non-empty page
batch is written to its own fresh file — the files of a run are exactly its
non-empty parsed batches in page order — and each such file holds one JSON
record object per newline-terminated line. -/
theorem local_mode_saves_each_nonempty_batch :
    (∀ (cfg : Cfg) (fetchO : Nat → FetchOutcome) (postO : Nat → PostOutcome)
       (saveO : Nat → WriteOutcome) (utcOff : Int),
      cfg.output_mode ≠ "api" → (∀ i, saveO i = .ok) →
      ∀ fuel start nPost nSave processed,
        (collect_papers_loop cfg fetchO postO saveO utcOff fuel start nPost nSave processed).saves
          = ((collect_papers_loop cfg fetchO postO saveO utcOff fuel start nPost nSave processed).batches).filter
              (fun b => !b.isEmpty)) ∧
    (∀ batch : List Record,
      splitChar '\n' (fileContent batch)
        = batch.map (fun r => dumpJson (recordToJson r)) ++ [[]]) := by
  constructor
  · intro cfg fetchO postO saveO utcOff hmode hsave fuel start nPost nSave processed
    exact loop_saves_eq cfg fetchO postO saveO utcOff hmode hsave fuel start nPost nSave processed
  · intro batch
    exact fileContent_lines batch

/-- Witness for the amended C8: a concrete one-page local run saves exactly
its one non-empty batch, and splitting a one-record file at newlines yields
that record's JSON text and the trailing empty segment. -/
theorem local_mode_saves_witness :
    (collect_papers_loop ⟨"local", none⟩
        (fun _ => .resp 200 (.feed (some "100")
          [⟨some "http://arxiv.org/abs/5151.1", some "T", some "A",
            some "2024-01-15T08:30:00Z", [some "Alice"], [some "cs.AI"]⟩]))
        (fun _ => .exn) (fun _ => .ok) 0 1 0 0 0 []).saves
      = ((collect_papers_loop ⟨"local", none⟩
        (fun _ => .resp 200 (.feed (some "100")
          [⟨some "http://arxiv.org/abs/5151.1", some "T", some "A",
            some "2024-01-15T08:30:00Z", [some "Alice"], [some "cs.AI"]⟩]))
        (fun _ => .exn) (fun _ => .ok) 0 1 0 0 0 []).batches).filter
          (fun b => !b.isEmpty) ∧
    splitChar '\n' (fileContent [⟨"5151.1", "T", ["Alice"], "A", ["cs.AI"], 1705307400⟩])
      = [⟨"5151.1", "T", ["Alice"], "A", ["cs.AI"], 1705307400⟩].map
          (fun r => dumpJson (recordToJson r)) ++ [[]] :=
  ⟨local_mode_saves_each_nonempty_batch.1 ⟨"local", none⟩
      (fun _ => .resp 200 (.feed (some "100")
        [⟨some "http://arxiv.org/abs/5151.1", some "T", some "A",
          some "2024-01-15T08:30:00Z", [some "Alice"], [some "cs.AI"]⟩]))
      (fun _ => .exn) (fun _ => .ok) 0 (by decide) (fun _ => rfl) 1 0 0 0 [],
   local_mode_saves_each_nonempty_batch.2
      [⟨"5151.1", "T", ["Alice"], "A", ["cs.AI"], 1705307400⟩]⟩

theorem b64CharVal_b64Char : ∀ n < 64, b64CharVal (b64Char n) = some n := by decide

theorem b64Char_ne_pad : ∀ n < 64, b64Char n ≠ '=' := by decide

theorem b64Encode_head (l : List Nat) (hl : l ≠ []) :
    ∃ w x y z t, b64Encode l = w :: x :: y :: z :: t := by
  cases l with
  | nil => exact absurd rfl hl
  | cons a t1 =>
    cases t1 with
    | nil => exact ⟨_, _, _, _, [], rfl⟩
    | cons b t2 =>
      cases t2 with
      | nil => exact ⟨_, _, _, _, [], rfl⟩
      | cons c t3 => exact ⟨_, _, _, _, b64Encode t3, rfl⟩

theorem b64_roundtrip : ∀ (l : List Nat), (∀ b ∈ l, b < 256) →
    b64Decode (b64Encode l) = some l := by
  intro l
  induction l using b64Encode.induct with
  | case1 a b c rest ih =>
    intro hb
    have ha256 : a < 256 := hb a (by simp)
    have hb256 : b < 256 := hb b (by simp)
    have hc256 : c < 256 := hb c (by simp)
    by_cases hr : rest = []
    · subst hr
      simp only [b64Encode]
      rw [b64Decode]
      rw [if_neg (b64Char_ne_pad (c % 64) (by omega))]
      rw [b64CharVal_b64Char (a / 4) (by omega),
          b64CharVal_b64Char (a % 4 * 16 + b / 16) (by omega),
          b64CharVal_b64Char (b % 16 * 4 + c / 64) (by omega),
          b64CharVal_b64Char (c % 64) (by omega)]
      simp
      omega
    · obtain ⟨w, x, y, z, t, henc⟩ := b64Encode_head rest hr
      simp only [b64Encode, henc]
      rw [b64Decode]
      rw [b64CharVal_b64Char (a / 4) (by omega),
          b64CharVal_b64Char (a % 4 * 16 + b / 16) (by omega),
          b64CharVal_b64Char (b % 16 * 4 + c / 64) (by omega),
          b64CharVal_b64Char (c % 64) (by omega)]
      rw [← henc, ih (fun v hv => hb v (by simp [hv]))]
      simp
      omega
      simp
  | case2 a b =>
    intro hb
    have ha256 : a < 256 := hb a (by simp)
    have hb256 : b < 256 := hb b (by simp)
    simp only [b64Encode]
    rw [b64Decode]
    rw [if_pos rfl, if_neg (b64Char_ne_pad (b % 16 * 4) (by omega))]
    rw [b64CharVal_b64Char (a / 4) (by omega),
        b64CharVal_b64Char (a % 4 * 16 + b / 16) (by omega),
        b64CharVal_b64Char (b % 16 * 4) (by omega)]
    simp
    omega
  | case3 a =>
    intro hb
    have ha256 : a < 256 := hb a (by simp)
    simp only [b64Encode]
    rw [b64Decode]
    rw [if_pos rfl, if_pos rfl]
    rw [b64CharVal_b64Char (a / 4) (by omega),
        b64CharVal_b64Char (a % 4 * 16) (by omega)]
    simp
    omega
  | case4 => intro hb; rfl

/-- Claim C10 confirmed: the Signer base64-encodes a PKCS#1 v1.5 RSA
signature, but the value that signature certifies is the SHA-256 of the
SHA-256 of the body: _sign_request pre-hashes the body, and the library sign
call hashes its input again.  Consequently a verifier applying the library
verify call to the raw body (a single extra SHA-256) succeeds only when
SHA-256 is a fixed point on the digest, which the inequality hypothesis rules
out, while verifying against the pre-hashed digest succeeds; Base64 decoding
of the header value recovers the raw signature. -/
theorem signer_double_hash (p : RsaPrims) (body : List Nat) :
    sign_request p body = b64Encode (p.rsaSignPkcs1 (p.sha256 (p.sha256 body))) ∧
    ((∀ v ∈ librarySign p (p.sha256 body), v < 256) →
      b64Decode (sign_request p body) = some (librarySign p (p.sha256 body))) ∧
    ((∀ x y, p.rsaVerifyPkcs1 (p.rsaSignPkcs1 x) y = true ↔ x = y) →
      (libraryVerify p (librarySign p (p.sha256 body)) (p.sha256 body) = true) ∧
      (p.sha256 (p.sha256 body) ≠ p.sha256 body →
        libraryVerify p (librarySign p (p.sha256 body)) body = false)) := by
  refine ⟨rfl, ?_, ?_⟩
  · intro hbound
    exact b64_roundtrip _ hbound
  · intro hpair
    constructor
    · exact (hpair (p.sha256 (p.sha256 body)) (p.sha256 (p.sha256 body))).mpr rfl
    · intro hne
      rw [Bool.eq_false_iff]
      intro hc
      exact hne ((hpair _ _).mp hc)

/-- Witness for C10 at concrete primitives: with toy injective primitives the
structural identity holds, Base64 decoding recovers the signature, verifying
against the digest succeeds, and verifying against the raw body fails. -/
theorem signer_double_hash_witness :
    sign_request ⟨fun l => 0 :: l, fun l => 7 :: l, fun s y => s == 7 :: y⟩ [1, 2, 3]
      = b64Encode (7 :: 0 :: 0 :: [1, 2, 3]) ∧
    b64Decode (sign_request ⟨fun l => 0 :: l, fun l => 7 :: l, fun s y => s == 7 :: y⟩ [1, 2, 3])
      = some (7 :: 0 :: 0 :: [1, 2, 3]) ∧
    libraryVerify ⟨fun l => 0 :: l, fun l => 7 :: l, fun s y => s == 7 :: y⟩
        (7 :: 0 :: 0 :: [1, 2, 3]) (0 :: [1, 2, 3]) = true ∧
    libraryVerify ⟨fun l => 0 :: l, fun l => 7 :: l, fun s y => s == 7 :: y⟩
        (7 :: 0 :: 0 :: [1, 2, 3]) [1, 2, 3] = false := by
  have h := signer_double_hash ⟨fun l => 0 :: l, fun l => 7 :: l, fun s y => s == 7 :: y⟩ [1, 2, 3]
  have hpair : ∀ x y : List Nat, (7 :: x == 7 :: y) = true ↔ x = y := by
    intro x y
    simp
  refine ⟨h.1, h.2.1 (by decide), ?_, ?_⟩
  · exact ((h.2.2 hpair).1)
  · exact (h.2.2 hpair).2 (by decide)

theorem hexVal_hexDigitChar : ∀ m < 16, hexVal (hexDigitChar m) = some m := by decide

theorem hexVal_zero : hexVal '0' = some 0 := by decide

theorem parseStrBody_enc : ∀ (s : List Char) (rest : List Char),
    parseStrBody ((s.map escChar).flatten ++ '"' :: rest) = some (s, rest) := by
  intro s
  induction s with
  | nil =>
    intro rest
    rw [parseStrBody.eq_def]
    simp
  | cons c cs ih =>
    intro rest
    have hstep : (((c :: cs).map escChar).flatten ++ '"' :: rest)
        = escChar c ++ ((cs.map escChar).flatten ++ '"' :: rest) := by
      simp [List.append_assoc]
    rw [hstep]
    by_cases h1 : c = '"'
    · subst h1
      have hesc : escChar '"' = ['\\', '"'] := by decide
      rw [hesc, List.cons_append, List.cons_append, List.nil_append,
        parseStrBody.eq_def]
      simp [ih rest]
    · by_cases h2 : c = '\\'
      · subst h2
        have hesc : escChar '\\' = ['\\', '\\'] := by decide
        rw [hesc, List.cons_append, List.cons_append, List.nil_append,
          parseStrBody.eq_def]
        simp [ih rest]
      · by_cases h3 : c.toNat = 8
        · have hc : c = Char.ofNat 8 := by rw [← h3, Char.ofNat_toNat]
          subst hc
          have hesc : escChar (Char.ofNat 8) = ['\\', 'b'] := by decide
          rw [hesc, List.cons_append, List.cons_append, List.nil_append,
            parseStrBody.eq_def]
          simp [ih rest]
        · by_cases h4 : c.toNat = 9
          · have hc : c = Char.ofNat 9 := by rw [← h4, Char.ofNat_toNat]
            subst hc
            have hesc : escChar (Char.ofNat 9) = ['\\', 't'] := by decide
            have hch : ('\t' : Char) = Char.ofNat 9 := by decide
            rw [hesc, List.cons_append, List.cons_append, List.nil_append,
              parseStrBody.eq_def]
            simp [ih rest, hch]
          · by_cases h5 : c.toNat = 10
            · have hc : c = Char.ofNat 10 := by rw [← h5, Char.ofNat_toNat]
              subst hc
              have hesc : escChar (Char.ofNat 10) = ['\\', 'n'] := by decide
              have hch : ('\n' : Char) = Char.ofNat 10 := by decide
              rw [hesc, List.cons_append, List.cons_append, List.nil_append,
                parseStrBody.eq_def]
              simp [ih rest, hch]
            · by_cases h6 : c.toNat = 12
              · have hc : c = Char.ofNat 12 := by rw [← h6, Char.ofNat_toNat]
                subst hc
                have hesc : escChar (Char.ofNat 12) = ['\\', 'f'] := by decide
                rw [hesc, List.cons_append, List.cons_append, List.nil_append,
                  parseStrBody.eq_def]
                simp [ih rest]
              · by_cases h7 : c.toNat = 13
                · have hc : c = Char.ofNat 13 := by rw [← h7, Char.ofNat_toNat]
                  subst hc
                  have hesc : escChar (Char.ofNat 13) = ['\\', 'r'] := by decide
                  rw [hesc, List.cons_append, List.cons_append, List.nil_append,
                    parseStrBody.eq_def]
                  simp [ih rest]
                · by_cases h8 : c.toNat < 32
                  · have hesc : escChar c = ['\\', 'u', '0', '0',
                        hexDigitChar (c.toNat / 16), hexDigitChar (c.toNat % 16)] := by
                      unfold escChar
                      rw [if_neg h1, if_neg h2, if_neg h3, if_neg h4, if_neg h5,
                          if_neg h6, if_neg h7, if_pos h8]
                    have hx1 : hexVal (hexDigitChar (c.toNat / 16)) = some (c.toNat / 16) :=
                      hexVal_hexDigitChar _ (by omega)
                    have hx2 : hexVal (hexDigitChar (c.toNat % 16)) = some (c.toNat % 16) :=
                      hexVal_hexDigitChar _ (by omega)
                    have harg : c.toNat / 16 * 16 + c.toNat % 16 = c.toNat := by omega
                    rw [hesc]
                    rw [List.cons_append, List.cons_append, List.cons_append,
                        List.cons_append, List.cons_append, List.cons_append,
                        List.nil_append, parseStrBody.eq_def]
                    simp [hexVal_zero, hx1, hx2, harg, Char.ofNat_toNat, ih rest]
                    omega
                  · have hesc : escChar c = [c] := by
                      unfold escChar
                      rw [if_neg h1, if_neg h2, if_neg h3, if_neg h4, if_neg h5,
                          if_neg h6, if_neg h7, if_neg h8]
                    rw [hesc, List.cons_append, List.nil_append, parseStrBody.eq_def]
                    simp [h1, h2, h8, ih rest]

theorem digitChar_isDigit : ∀ k < 10, (digitChar k).isDigit = true := by decide

theorem digitVal_digitChar : ∀ k < 10, digitVal (digitChar k) = k := by decide

theorem digitChar_facts : ∀ k < 10, isJsonWs (digitChar k) = false ∧
    ¬digitChar k = '"' ∧ ¬digitChar k = '[' ∧ ¬digitChar k = Char.ofNat 123 ∧
    ¬digitChar k = 'n' ∧ ¬digitChar k = 't' ∧ ¬digitChar k = 'f' ∧
    ¬digitChar k = '-' := by decide

theorem natDigits_head (n : Nat) : ∃ k ds, k < 10 ∧ natDigits n = digitChar k :: ds := by
  induction n using Nat.strong_induction_on with
  | _ n ih =>
    rw [natDigits]
    split
    · next h => exact ⟨n, [], h, rfl⟩
    · next h =>
      obtain ⟨k, ds, hk, hds⟩ := ih (n / 10) (Nat.div_lt_self (by omega) (by omega))
      exact ⟨k, ds ++ [digitChar (n % 10)], hk, by rw [hds]; simp⟩

theorem parseNatLoop_append (n : Nat) : ∀ (acc : Nat) (rest : List Char),
    parseNatLoop acc (natDigits n ++ rest)
      = parseNatLoop (acc * 10 ^ (natDigits n).length + n) rest := by
  induction n using Nat.strong_induction_on with
  | _ n ih =>
    intro acc rest
    rw [natDigits]
    split
    · next h =>
      simp [parseNatLoop, digitChar_isDigit n h, digitVal_digitChar n h]
    · next h =>
      rw [List.append_assoc, List.singleton_append,
        ih (n / 10) (Nat.div_lt_self (by omega) (by omega)) acc (digitChar (n % 10) :: rest)]
      have h10 : n % 10 < 10 := Nat.mod_lt _ (by omega)
      simp only [parseNatLoop, digitChar_isDigit (n % 10) h10, if_true,
        digitVal_digitChar (n % 10) h10, List.length_append, List.length_singleton]
      have hdm : n / 10 * 10 + n % 10 = n := by omega
      have hgoal : (acc * 10 ^ (natDigits (n / 10)).length + n / 10) * 10 + n % 10
          = acc * 10 ^ ((natDigits (n / 10)).length + 1) + n := by
        rw [Nat.add_mul, Nat.add_assoc, hdm, pow_succ, ← Nat.mul_assoc]
      rw [hgoal]

theorem parseNatLoop_stop (m : Nat) (rest : List Char)
    (h : (rest.headD 'x').isDigit = false) : parseNatLoop m rest = (m, rest) := by
  cases rest with
  | nil => simp [parseNatLoop]
  | cons c cs =>
    simp only [List.headD_cons] at h
    simp [parseNatLoop, h]

theorem parseNatLoop_full (m : Nat) (rest : List Char)
    (h : (rest.headD 'x').isDigit = false) :
    parseNatLoop 0 (natDigits m ++ rest) = (m, rest) := by
  rw [parseNatLoop_append]
  simp only [Nat.zero_mul, Nat.zero_add]
  exact parseNatLoop_stop m rest h

theorem parseIntTok_dump (n : Int) (rest : List Char)
    (hend : intEndOk rest = true) (hd : (rest.headD 'x').isDigit = false) :
    parseIntTok (dumpInt n ++ rest) = some (n, rest) := by
  by_cases hn : n < 0
  · obtain ⟨k, ds, hk, hnd⟩ := natDigits_head (-n).toNat
    have h0 := parseNatLoop_full (-n).toNat rest hd
    rw [hnd, List.cons_append] at h0
    simp only [parseNatLoop, digitChar_isDigit k hk, if_true,
      digitVal_digitChar k hk, Nat.zero_mul, Nat.zero_add] at h0
    unfold dumpInt
    rw [if_pos hn, hnd, List.cons_append, List.cons_append]
    simp [parseIntTok, digitChar_isDigit k hk, digitVal_digitChar k hk, h0, hend]
    omega
  · obtain ⟨k, ds, hk, hnd⟩ := natDigits_head n.toNat
    have h0 := parseNatLoop_full n.toNat rest hd
    rw [hnd, List.cons_append] at h0
    simp only [parseNatLoop, digitChar_isDigit k hk, if_true,
      digitVal_digitChar k hk, Nat.zero_mul, Nat.zero_add] at h0
    unfold dumpInt
    rw [if_neg hn, hnd, List.cons_append]
    simp [parseIntTok, (digitChar_facts k hk).2.2.2.2.2.2.2,
      digitChar_isDigit k hk, digitVal_digitChar k hk, h0, hend]
    omega

theorem skipWs_cons_neg (c : Char) (cs : List Char) (h : isJsonWs c = false) :
    skipWs (c :: cs) = c :: cs := by
  simp [skipWs, List.dropWhile_cons, h]

theorem skipWs_cons_space (cs : List Char) : skipWs (' ' :: cs) = skipWs cs := by
  have h : isJsonWs ' ' = true := by decide
  simp [skipWs, List.dropWhile_cons, h]

theorem parseVal_ws (f : Nat) (cs : List Char) :
    parseVal f (' ' :: cs) = parseVal f cs := by
  cases f with
  | zero => rfl
  | succ f =>
    rw [parseVal.eq_def]
    conv => rhs; rw [parseVal.eq_def]
    simp only [skipWs_cons_space]

theorem parseElems_ws (f : Nat) (cs : List Char) :
    parseElems f (' ' :: cs) = parseElems f cs := by
  cases f with
  | zero => rfl
  | succ f => simp [parseElems, parseVal_ws]

theorem parseMembers_ws (f : Nat) (cs : List Char) :
    parseMembers f (' ' :: cs) = parseMembers f cs := by
  cases f with
  | zero => rfl
  | succ f =>
    rw [parseMembers.eq_def]
    conv => rhs; rw [parseMembers.eq_def]
    simp only [skipWs_cons_space]

theorem parseVal_jstr (f : Nat) (s : String) (rest : List Char) :
    parseVal (f + 1) (dumpJson (strJ s) ++ rest) = some (strJ s, rest) := by
  have hshape : dumpJson (strJ s) ++ rest
      = '"' :: ((s.data.map escChar).flatten ++ '"' :: rest) := by
    simp [dumpJson, strJ, encStr, List.append_assoc]
  have hsw : skipWs ('"' :: ((s.data.map escChar).flatten ++ '"' :: rest))
      = '"' :: ((s.data.map escChar).flatten ++ '"' :: rest) :=
    skipWs_cons_neg _ _ (by decide)
  rw [hshape, parseVal.eq_def]
  simp [hsw, parseStrBody_enc s.data rest, strJ]

theorem skipWs_quote (l : List Char) : skipWs ('"' :: l) = '"' :: l :=
  skipWs_cons_neg _ _ (by decide)

theorem skipWs_colon (l : List Char) : skipWs (':' :: l) = ':' :: l :=
  skipWs_cons_neg _ _ (by decide)

theorem skipWs_comma (l : List Char) : skipWs (',' :: l) = ',' :: l :=
  skipWs_cons_neg _ _ (by decide)

theorem skipWs_rbrace (l : List Char) : skipWs (Char.ofNat 125 :: l) = Char.ofNat 125 :: l :=
  skipWs_cons_neg _ _ (by decide)

theorem skipWs_rbracket (l : List Char) : skipWs (']' :: l) = ']' :: l :=
  skipWs_cons_neg _ _ (by decide)

theorem parseVal_jint (f : Nat) (n : Int) (rest : List Char)
    (hend : intEndOk rest = true) (hd : (rest.headD 'x').isDigit = false) :
    parseVal (f + 1) (dumpJson (.jint n) ++ rest) = some (.jint n, rest) := by
  have hint := parseIntTok_dump n rest hend hd
  by_cases hn : n < 0
  · have hsh : dumpInt n = '-' :: natDigits (-n).toNat := by simp [dumpInt, hn]
    have hshape : dumpJson (Json.jint n) ++ rest = '-' :: (natDigits (-n).toNat ++ rest) := by
      simp [dumpJson, hsh]
    have hsw : skipWs ('-' :: (natDigits (-n).toNat ++ rest))
        = '-' :: (natDigits (-n).toNat ++ rest) := skipWs_cons_neg _ _ (by decide)
    have hint2 : parseIntTok ('-' :: (natDigits (-n).toNat ++ rest)) = some (n, rest) := by
      rw [show ('-' :: (natDigits (-n).toNat ++ rest)) = dumpInt n ++ rest by
        rw [hsh, List.cons_append]]
      exact hint
    rw [hshape, parseVal.eq_def]
    simp [hsw, hint2]
  · obtain ⟨k, ds, hk, hnd⟩ := natDigits_head n.toNat
    have hsh : dumpInt n = digitChar k :: ds := by simp [dumpInt, hn, hnd]
    have hshape : dumpJson (Json.jint n) ++ rest = digitChar k :: (ds ++ rest) := by
      simp [dumpJson, hsh]
    obtain ⟨hws, hq, hlb, hlc, hn2, ht2, hf2, hm2⟩ := digitChar_facts k hk
    have hsw : skipWs (digitChar k :: (ds ++ rest)) = digitChar k :: (ds ++ rest) :=
      skipWs_cons_neg _ _ hws
    have hint2 : parseIntTok (digitChar k :: (ds ++ rest)) = some (n, rest) := by
      rw [show (digitChar k :: (ds ++ rest)) = dumpInt n ++ rest by
        rw [hsh, List.cons_append]]
      exact hint
    rw [hshape, parseVal.eq_def]
    simp [hsw, hq, hlb, hlc, hn2, ht2, hf2, hint2]

theorem dumpElems_strs_head (s0 : String) (tl : List String) :
    ∃ t, dumpElems ((s0 :: tl).map strJ) = '"' :: t := by
  cases tl with
  | nil => exact ⟨_, rfl⟩
  | cons s1 tl2 => exact ⟨_, rfl⟩

theorem parseElems_single (g : Nat) (v : Json) (rest : List Char)
    (hv : parseVal g (dumpJson v ++ ']' :: rest) = some (v, ']' :: rest)) :
    parseElems (g + 1) (dumpElems [v] ++ ']' :: rest) = some ([v], rest) := by
  have hde : dumpElems [v] = dumpJson v := rfl
  rw [hde, parseElems.eq_def]
  simp [hv, skipWs_rbracket]

theorem parseElems_cons (g : Nat) (v w : Json) (tl : List Json) (rest : List Char)
    (hv : parseVal g (dumpJson v ++ ',' :: ' ' :: (dumpElems (w :: tl) ++ ']' :: rest))
            = some (v, ',' :: ' ' :: (dumpElems (w :: tl) ++ ']' :: rest)))
    (hrec : parseElems g (dumpElems (w :: tl) ++ ']' :: rest) = some (w :: tl, rest)) :
    parseElems (g + 1) (dumpElems (v :: w :: tl) ++ ']' :: rest)
      = some (v :: w :: tl, rest) := by
  have hde : dumpElems (v :: w :: tl) ++ ']' :: rest
      = dumpJson v ++ ',' :: ' ' :: (dumpElems (w :: tl) ++ ']' :: rest) := by
    simp [dumpElems, List.append_assoc]
  rw [hde, parseElems.eq_def]
  simp [hv, skipWs_comma, parseElems_ws, hrec]

theorem parseElems_strs : ∀ (tl : List String) (s0 : String) (f : Nat) (rest : List Char),
    parseElems (f + tl.length + 2) (dumpElems ((s0 :: tl).map strJ) ++ ']' :: rest)
      = some ((s0 :: tl).map strJ, rest) := by
  intro tl
  induction tl with
  | nil =>
    intro s0 f rest
    exact parseElems_single (f + 1) (strJ s0) rest (parseVal_jstr f s0 (']' :: rest))
  | cons s1 tl2 ih =>
    intro s0 f rest
    have h1 : parseVal (f + tl2.length + 2)
        (dumpJson (strJ s0) ++ ',' :: ' ' :: (dumpElems ((s1 :: tl2).map strJ) ++ ']' :: rest))
          = some (strJ s0, ',' :: ' ' :: (dumpElems ((s1 :: tl2).map strJ) ++ ']' :: rest)) :=
      parseVal_jstr (f + tl2.length + 1) s0 _
    have h2 : parseElems (f + tl2.length + 2)
        (dumpElems ((s1 :: tl2).map strJ) ++ ']' :: rest) = some ((s1 :: tl2).map strJ, rest) :=
      ih s1 f rest
    have h3 := parseElems_cons (f + tl2.length + 2) (strJ s0) (strJ s1) (tl2.map strJ) rest h1 h2
    exact h3

theorem parseVal_arr (f : Nat) (ss : List String) (rest : List Char) :
    parseVal (f + ss.length + 2) (dumpJson (.jarr (ss.map strJ)) ++ rest)
      = some (.jarr (ss.map strJ), rest) := by
  cases ss with
  | nil =>
    have hshape : dumpJson (Json.jarr ([].map strJ)) ++ rest = '[' :: (']' :: rest) := rfl
    rw [hshape, parseVal.eq_def]
    simp [skipWs_cons_neg '[' _ (by decide), skipWs_rbracket]
  | cons s0 tl =>
    obtain ⟨t, ht⟩ := dumpElems_strs_head s0 tl
    have hshape : dumpJson (Json.jarr ((s0 :: tl).map strJ)) ++ rest
        = '[' :: (dumpElems ((s0 :: tl).map strJ) ++ ']' :: rest) := by
      simp [dumpJson, List.append_assoc]
    have hswl : skipWs ('[' :: (dumpElems ((s0 :: tl).map strJ) ++ ']' :: rest))
        = '[' :: (dumpElems ((s0 :: tl).map strJ) ++ ']' :: rest) :=
      skipWs_cons_neg _ _ (by decide)
    have hcons : dumpElems ((s0 :: tl).map strJ) ++ ']' :: rest
        = '"' :: (t ++ ']' :: rest) := by
      rw [ht, List.cons_append]
    have helems := parseElems_strs tl s0 f rest
    rw [hshape, parseVal.eq_def]
    simp only [hswl, show ¬('[' : Char) = '"' from by decide, if_false,
      eq_self_iff_true, if_true]
    rw [hcons, skipWs_quote]
    simp only [show ¬('"' : Char) = ']' from by decide, if_false]
    rw [← hcons]
    simp only [List.length_cons]
    have hfu : f + (tl.length + 1) + 1 = f + tl.length + 2 := by omega
    rw [hfu, helems]
    rfl

theorem parseMembers_single (g : Nat) (k : List Char) (v : Json) (rest : List Char)
    (hv : parseVal g (dumpJson v ++ Char.ofNat 125 :: rest) = some (v, Char.ofNat 125 :: rest)) :
    parseMembers (g + 1) (dumpMembers [(k, v)] ++ Char.ofNat 125 :: rest)
      = some ([(k, v)], rest) := by
  have hshape : dumpMembers [(k, v)] ++ Char.ofNat 125 :: rest
      = '"' :: ((k.map escChar).flatten ++ '"' ::
          (':' :: ' ' :: (dumpJson v ++ Char.ofNat 125 :: rest))) := by
    simp [dumpMembers, encStr, List.append_assoc]
  rw [hshape, parseMembers.eq_def]
  simp [skipWs_quote, parseStrBody_enc, skipWs_colon, parseVal_ws, hv, skipWs_rbrace]

theorem parseMembers_cons (g : Nat) (k : List Char) (v : Json) (q : List Char × Json)
    (tl : List (List Char × Json)) (rest : List Char)
    (hv : parseVal g (dumpJson v ++ ',' :: ' ' ::
            (dumpMembers (q :: tl) ++ Char.ofNat 125 :: rest))
            = some (v, ',' :: ' ' :: (dumpMembers (q :: tl) ++ Char.ofNat 125 :: rest)))
    (hrec : parseMembers g (dumpMembers (q :: tl) ++ Char.ofNat 125 :: rest)
            = some (q :: tl, rest)) :
    parseMembers (g + 1) (dumpMembers ((k, v) :: q :: tl) ++ Char.ofNat 125 :: rest)
      = some ((k, v) :: q :: tl, rest) := by
  have hshape : dumpMembers ((k, v) :: q :: tl) ++ Char.ofNat 125 :: rest
      = '"' :: ((k.map escChar).flatten ++ '"' ::
          (':' :: ' ' :: (dumpJson v ++ ',' :: ' ' ::
            (dumpMembers (q :: tl) ++ Char.ofNat 125 :: rest)))) := by
    simp [dumpMembers, encStr, List.append_assoc]
  rw [hshape, parseMembers.eq_def]
  simp [skipWs_quote, parseStrBody_enc, skipWs_colon, parseVal_ws, hv, skipWs_comma,
    parseMembers_ws, hrec]

theorem parseVal_record (f : Nat) (r : Record) (rest : List Char) :
    parseVal (f + r.authors.length + r.categories.length + 9)
        (dumpJson (recordToJson r) ++ rest) = some (recordToJson r, rest) := by
  have m6 : ∀ f6, parseMembers (f6 + 2)
      (dumpMembers [("published_date".data, Json.jint r.published_date)]
        ++ Char.ofNat 125 :: rest)
      = some ([("published_date".data, Json.jint r.published_date)], rest) := by
    intro f6
    exact parseMembers_single (f6 + 1) _ _ rest
      (parseVal_jint f6 r.published_date _ (by rfl) (by simp))
  have m5 : ∀ f5, parseMembers (f5 + r.categories.length + 4)
      (dumpMembers [("categories".data, Json.jarr (r.categories.map strJ)),
        ("published_date".data, Json.jint r.published_date)] ++ Char.ofNat 125 :: rest)
      = some ([("categories".data, Json.jarr (r.categories.map strJ)),
        ("published_date".data, Json.jint r.published_date)], rest) := by
    intro f5
    have hv5 := parseVal_arr (f5 + 1) r.categories
      (',' :: ' ' :: (dumpMembers [("published_date".data, Json.jint r.published_date)]
        ++ Char.ofNat 125 :: rest))
    rw [show f5 + 1 + r.categories.length + 2 = f5 + r.categories.length + 3 from by omega] at hv5
    exact parseMembers_cons (f5 + r.categories.length + 3) _ _ _ [] rest hv5
      (m6 (f5 + r.categories.length + 1))
  have m4 : ∀ f4, parseMembers (f4 + r.categories.length + 5)
      (dumpMembers [("abstract".data, strJ r.abstract),
        ("categories".data, Json.jarr (r.categories.map strJ)),
        ("published_date".data, Json.jint r.published_date)] ++ Char.ofNat 125 :: rest)
      = some ([("abstract".data, strJ r.abstract),
        ("categories".data, Json.jarr (r.categories.map strJ)),
        ("published_date".data, Json.jint r.published_date)], rest) := by
    intro f4
    exact parseMembers_cons (f4 + r.categories.length + 4) _ _ _ _ rest
      (parseVal_jstr (f4 + r.categories.length + 3) r.abstract _) (m5 f4)
  have m3 : ∀ f3, parseMembers (f3 + r.authors.length + r.categories.length + 6)
      (dumpMembers [("authors".data, Json.jarr (r.authors.map strJ)),
        ("abstract".data, strJ r.abstract),
        ("categories".data, Json.jarr (r.categories.map strJ)),
        ("published_date".data, Json.jint r.published_date)] ++ Char.ofNat 125 :: rest)
      = some ([("authors".data, Json.jarr (r.authors.map strJ)),
        ("abstract".data, strJ r.abstract),
        ("categories".data, Json.jarr (r.categories.map strJ)),
        ("published_date".data, Json.jint r.published_date)], rest) := by
    intro f3
    have hv3 := parseVal_arr (f3 + r.categories.length + 3) r.authors
      (',' :: ' ' :: (dumpMembers [("abstract".data, strJ r.abstract),
        ("categories".data, Json.jarr (r.categories.map strJ)),
        ("published_date".data, Json.jint r.published_date)] ++ Char.ofNat 125 :: rest))
    rw [show f3 + r.categories.length + 3 + r.authors.length + 2
        = f3 + r.authors.length + r.categories.length + 5 from by omega] at hv3
    have hr3 := m4 (f3 + r.authors.length)
    rw [show f3 + r.authors.length + r.categories.length + 5
        = f3 + r.authors.length + r.categories.length + 5 from rfl] at hr3
    exact parseMembers_cons (f3 + r.authors.length + r.categories.length + 5) _ _ _ _ rest
      hv3 hr3
  have m2 : ∀ f2, parseMembers (f2 + r.authors.length + r.categories.length + 7)
      (dumpMembers [("title".data, strJ r.title),
        ("authors".data, Json.jarr (r.authors.map strJ)),
        ("abstract".data, strJ r.abstract),
        ("categories".data, Json.jarr (r.categories.map strJ)),
        ("published_date".data, Json.jint r.published_date)] ++ Char.ofNat 125 :: rest)
      = some ([("title".data, strJ r.title),
        ("authors".data, Json.jarr (r.authors.map strJ)),
        ("abstract".data, strJ r.abstract),
        ("categories".data, Json.jarr (r.categories.map strJ)),
        ("published_date".data, Json.jint r.published_date)], rest) := by
    intro f2
    exact parseMembers_cons (f2 + r.authors.length + r.categories.length + 6) _ _ _ _ rest
      (parseVal_jstr (f2 + r.authors.length + r.categories.length + 5) r.title _) (m3 f2)
  have m1 : ∀ f1, parseMembers (f1 + r.authors.length + r.categories.length + 8)
      (dumpMembers [("arxiv_id".data, strJ r.arxiv_id),
        ("title".data, strJ r.title),
        ("authors".data, Json.jarr (r.authors.map strJ)),
        ("abstract".data, strJ r.abstract),
        ("categories".data, Json.jarr (r.categories.map strJ)),
        ("published_date".data, Json.jint r.published_date)] ++ Char.ofNat 125 :: rest)
      = some ([("arxiv_id".data, strJ r.arxiv_id),
        ("title".data, strJ r.title),
        ("authors".data, Json.jarr (r.authors.map strJ)),
        ("abstract".data, strJ r.abstract),
        ("categories".data, Json.jarr (r.categories.map strJ)),
        ("published_date".data, Json.jint r.published_date)], rest) := by
    intro f1
    exact parseMembers_cons (f1 + r.authors.length + r.categories.length + 7) _ _ _ _ rest
      (parseVal_jstr (f1 + r.authors.length + r.categories.length + 6) r.arxiv_id _) (m2 f1)
  have hshape : dumpJson (recordToJson r) ++ rest
      = Char.ofNat 123 :: (dumpMembers [("arxiv_id".data, strJ r.arxiv_id),
        ("title".data, strJ r.title),
        ("authors".data, Json.jarr (r.authors.map strJ)),
        ("abstract".data, strJ r.abstract),
        ("categories".data, Json.jarr (r.categories.map strJ)),
        ("published_date".data, Json.jint r.published_date)] ++ Char.ofNat 125 :: rest) := by
    simp [recordToJson, dumpJson, List.append_assoc]
  have hcons : dumpMembers [("arxiv_id".data, strJ r.arxiv_id),
        ("title".data, strJ r.title),
        ("authors".data, Json.jarr (r.authors.map strJ)),
        ("abstract".data, strJ r.abstract),
        ("categories".data, Json.jarr (r.categories.map strJ)),
        ("published_date".data, Json.jint r.published_date)] ++ Char.ofNat 125 :: rest
      = '"' :: (("arxiv_id".data.map escChar).flatten ++ '"' ::
          (':' :: ' ' :: (dumpJson (strJ r.arxiv_id) ++ ',' :: ' ' ::
            (dumpMembers [("title".data, strJ r.title),
              ("authors".data, Json.jarr (r.authors.map strJ)),
              ("abstract".data, strJ r.abstract),
              ("categories".data, Json.jarr (r.categories.map strJ)),
              ("published_date".data, Json.jint r.published_date)]
              ++ Char.ofNat 125 :: rest)))) := by
    simp [dumpMembers, encStr, List.append_assoc]
  have hswb : skipWs (Char.ofNat 123 :: (dumpMembers [("arxiv_id".data, strJ r.arxiv_id),
        ("title".data, strJ r.title),
        ("authors".data, Json.jarr (r.authors.map strJ)),
        ("abstract".data, strJ r.abstract),
        ("categories".data, Json.jarr (r.categories.map strJ)),
        ("published_date".data, Json.jint r.published_date)] ++ Char.ofNat 125 :: rest))
      = Char.ofNat 123 :: (dumpMembers [("arxiv_id".data, strJ r.arxiv_id),
        ("title".data, strJ r.title),
        ("authors".data, Json.jarr (r.authors.map strJ)),
        ("abstract".data, strJ r.abstract),
        ("categories".data, Json.jarr (r.categories.map strJ)),
        ("published_date".data, Json.jint r.published_date)] ++ Char.ofNat 125 :: rest) :=
    skipWs_cons_neg _ _ (by decide)
  rw [hshape, parseVal.eq_def]
  simp only [hswb, show ¬(Char.ofNat 123 = '"') from by decide, if_false,
    show ¬(Char.ofNat 123 = '[') from by decide, eq_self_iff_true, if_true]
  rw [hcons, skipWs_quote]
  simp only [show ¬(('"' : Char) = Char.ofNat 125) from by decide, if_false]
  rw [← hcons]
  exact congrArg (Option.map (fun p => (Json.jobj p.1, p.2))) (m1 f) |>.trans rfl

theorem encStr_len (s : List Char) : 2 ≤ (encStr s).length := by
  simp [encStr]

theorem dumpElems_strs_len (ss : List String) :
    ss.length ≤ (dumpElems (ss.map strJ)).length := by
  induction ss with
  | nil => simp [dumpElems]
  | cons s tl ih =>
    cases tl with
    | nil =>
      simp only [List.map_cons, List.map_nil, dumpElems, dumpJson, strJ]
      have := encStr_len s.data
      simp
      omega
    | cons s2 tl2 =>
      simp only [List.map_cons, dumpElems, dumpJson, strJ] at ih ⊢
      have := encStr_len s.data
      simp only [List.length_append, List.length_cons] at ih ⊢
      omega

theorem record_dump_len (r : Record) :
    r.authors.length + r.categories.length + 12 ≤ (dumpJson (recordToJson r)).length := by
  have h1 := encStr_len r.arxiv_id.data
  have h2 := encStr_len r.title.data
  have h3 := encStr_len r.abstract.data
  have h4 := dumpElems_strs_len r.authors
  have h5 := dumpElems_strs_len r.categories
  simp only [recordToJson, dumpJson, dumpMembers, strJ, List.length_append,
    List.length_cons, List.length_nil]
  omega

theorem jsonParse_record (r : Record) : jsonParse (recordLine r) = some (recordToJson r) := by
  have hlen := record_dump_len r
  have hrl : recordLine r = dumpJson (recordToJson r) ++ ['\n'] := rfl
  have hlen2 : r.authors.length + r.categories.length + 13 ≤ (recordLine r).length + 1 := by
    rw [hrl]
    simp only [List.length_append, List.length_singleton]
    omega
  have hfe : (recordLine r).length + 1
      = ((recordLine r).length + 1 - (r.authors.length + r.categories.length + 9))
        + r.authors.length + r.categories.length + 9 := by
    omega
  have hsw : skipWs ['\n'] = [] := by decide
  unfold jsonParse
  rw [hfe, hrl, parseVal_record]
  simp [hsw]

theorem recordOfJson_recordToJson (r : Record) : recordOfJson (recordToJson r) = some r := by
  have h1 : ∀ s : String, jsonStr (strJ s) = some s := fun s => rfl
  have hmap : ∀ l : List String, jsonStrs (l.map strJ) = some l := by
    intro l
    induction l with
    | nil => rfl
    | cons s tl ih => simp [jsonStrs, h1, ih]
  cases r with
  | mk a t au ab ca p =>
    simp only [recordToJson, recordOfJson, strJ]
    simp [hmap]


theorem encStr_plain (s : List Char) (h : ∀ c ∈ s, 32 ≤ c.toNat ∧ c ≠ '"' ∧ c ≠ '\\') :
    encStr s = '"' :: s ++ ['"'] := by
  have hfl : ∀ (l : List Char), (∀ c ∈ l, 32 ≤ c.toNat ∧ c ≠ '"' ∧ c ≠ '\\') →
      (l.map escChar).flatten = l := by
    intro l
    induction l with
    | nil => intro _; rfl
    | cons c cs ih =>
      intro hl
      have hc := hl c (List.mem_cons_self _ _)
      have hesc : escChar c = [c] := by
        unfold escChar
        rw [if_neg hc.2.1, if_neg hc.2.2, if_neg (by omega), if_neg (by omega),
          if_neg (by omega), if_neg (by omega), if_neg (by omega), if_neg (by omega)]
      simp [hesc, ih (fun x hx => hl x (List.mem_cons_of_mem _ hx))]
  rw [encStr, hfl s h]

/-- Claim C9 confirmed: a Record serialized by the local sink parses back,
as JSON, to exactly the JSON value of the original record; reading that value
back gives the record field for field; and a string whose characters are
printable and need no escaping — in particular any non-ASCII text — is
serialized verbatim between quotes, not backslash-escaped. -/
theorem jsonl_round_trip :
    (∀ r : Record, jsonParse (recordLine r) = some (recordToJson r)) ∧
    (∀ r : Record, recordOfJson (recordToJson r) = some r) ∧
    (∀ s : List Char, (∀ c ∈ s, 32 ≤ c.toNat ∧ c ≠ '"' ∧ c ≠ '\\') →
      encStr s = '"' :: s ++ ['"']) :=
  ⟨jsonParse_record, recordOfJson_recordToJson, encStr_plain⟩

/-- Witness for C9 at a concrete record holding multi-byte text. -/
theorem jsonl_round_trip_witness :
    jsonParse (recordLine ⟨"2401.1", "Tít", ["Ál"], "Ab", ["cs.AI"], -5⟩)
      = some (recordToJson ⟨"2401.1", "Tít", ["Ál"], "Ab", ["cs.AI"], -5⟩) ∧
    recordOfJson (recordToJson ⟨"2401.1", "Tít", ["Ál"], "Ab", ["cs.AI"], -5⟩)
      = some ⟨"2401.1", "Tít", ["Ál"], "Ab", ["cs.AI"], -5⟩ ∧
    encStr "Tít".data = '"' :: "Tít".data ++ ['"'] :=
  ⟨jsonl_round_trip.1 ⟨"2401.1", "Tít", ["Ál"], "Ab", ["cs.AI"], -5⟩,
   jsonl_round_trip.2.1 ⟨"2401.1", "Tít", ["Ál"], "Ab", ["cs.AI"], -5⟩,
   jsonl_round_trip.2.2 "Tít".data (by decide)⟩


end ArxivFetch
